import Mathlib

/-!
# trfb: pixel accessors and buffered byte I/O of `trfb.h`

A shallow embedding of the inline functions and macros of `src/trfb.h`:

* the `TRFB_FB8_*`, `TRFB_FB16_*`, `TRFB_FB32_*` constants, `TRFB_RGB` and
  `TRFB_COLOR_R/G/B`;
* the three instances of `TRFB_PIXEL_FUNCTIONS(bits)` and the two dispatchers
  `trfb_framebuffer_get_pixel` / `trfb_framebuffer_set_pixel`;
* the buffered fast paths `trfb_io_getc` / `trfb_io_putc`.

Machine integers are natural numbers.  A `uint32_t` left shift is reduced
modulo `2^32`, a store into a `uint8_t`/`uint16_t`/`uint32_t` cell is reduced
modulo `2^bits`, and the `unsigned` index `y * width + x` is reduced modulo
`2^32`.  The pixel buffer is a list of pixel words (one cell per pixel), so
byte order inside a cell is not modelled.  Where C leaves the behaviour
undefined (a shift count of 32 or more, an index outside the buffer) the
definitions below are still total: a shift is the mathematical one, a load
outside the list gives `0` and a store outside the list does nothing.
-/

namespace Trfb

/-! ## Constants and colour macros -/

def TRFB_EOF : Nat := 0xffff
def TRFB_BUFSIZ : Nat := 2048

def TRFB_FB8_RMASK : Nat := 0x07
def TRFB_FB8_GMASK : Nat := 0x07
def TRFB_FB8_BMASK : Nat := 0x03
def TRFB_FB8_RSHIFT : Nat := 0
def TRFB_FB8_GSHIFT : Nat := 3
def TRFB_FB8_BSHIFT : Nat := 6

def TRFB_FB16_RMASK : Nat := 0x1f
def TRFB_FB16_GMASK : Nat := 0x3f
def TRFB_FB16_BMASK : Nat := 0x1f
def TRFB_FB16_RSHIFT : Nat := 11
def TRFB_FB16_GSHIFT : Nat := 5
def TRFB_FB16_BSHIFT : Nat := 0

def TRFB_FB32_RMASK : Nat := 0xff
def TRFB_FB32_GMASK : Nat := 0xff
def TRFB_FB32_BMASK : Nat := 0xff
def TRFB_FB32_RSHIFT : Nat := 16
def TRFB_FB32_GSHIFT : Nat := 8
def TRFB_FB32_BSHIFT : Nat := 0

/-- The value of a `uint32_t`: reduction modulo `2^32`. -/
def u32 (n : Nat) : Nat := n % 2 ^ 32

/-- The C expression `a << s` on a `uint32_t` operand `a`. -/
def shl32 (a s : Nat) : Nat := (a <<< s) % 2 ^ 32

/-- The macro `TRFB_RGB(r, g, b)`, `(((r) << 16) | ((g) << 8) | (b))`, on
`uint32_t` operands. -/
def TRFB_RGB (r g b : Nat) : Nat := shl32 r 16 ||| shl32 g 8 ||| u32 b

/-- The macro `TRFB_COLOR_R(col)`. -/
def TRFB_COLOR_R (col : Nat) : Nat := (col >>> TRFB_FB32_RSHIFT) &&& TRFB_FB32_RMASK

/-- The macro `TRFB_COLOR_G(col)`. -/
def TRFB_COLOR_G (col : Nat) : Nat := (col >>> TRFB_FB32_GSHIFT) &&& TRFB_FB32_GMASK

/-- The macro `TRFB_COLOR_B(col)`. -/
def TRFB_COLOR_B (col : Nat) : Nat := (col >>> TRFB_FB32_BSHIFT) &&& TRFB_FB32_BMASK

/-! ## Framebuffer -/

/-- The struct `trfb_framebuffer` without its lock.  `pixels` holds one word
per pixel, of the C type selected by `bpp`. -/
structure trfb_framebuffer where
  width : Nat
  height : Nat
  bpp : Nat
  rmask : Nat
  gmask : Nat
  bmask : Nat
  rshift : Nat
  gshift : Nat
  bshift : Nat
  rnorm : Nat
  gnorm : Nat
  bnorm : Nat
  pixels : List Nat
  free_pixels : Int
deriving DecidableEq, Repr

/-- The index expression `y * fb->width + x` in `unsigned` arithmetic. -/
def pixel_index (fb : trfb_framebuffer) (x y : Nat) : Nat :=
  (y * fb.width + x) % 2 ^ 32

/-- The load `((uint##bits##_t*)fb->pixels)[i]`. -/
def load_pixel (bits : Nat) (fb : trfb_framebuffer) (i : Nat) : Nat :=
  fb.pixels.getD i 0 % 2 ^ bits

/-- The store `((uint##bits##_t*)fb->pixels)[i] = v`. -/
def store_pixel (bits : Nat) (fb : trfb_framebuffer) (i v : Nat) : trfb_framebuffer :=
  { fb with pixels := fb.pixels.set i (v % 2 ^ bits) }

/-- The colour returned by `trfb_fb##bits##_get_pixel` for the pixel word `c`
it has loaded: its `return` expression. -/
def unpack_pixel (fb : trfb_framebuffer) (c : Nat) : Nat :=
  TRFB_RGB
    (shl32 ((c >>> fb.rshift) &&& fb.rmask) fb.rnorm)
    (shl32 ((c >>> fb.gshift) &&& fb.gmask) fb.gnorm)
    (shl32 ((c >>> fb.bshift) &&& fb.bmask) fb.bnorm)

/-- The function `trfb_fb##bits##_get_pixel` generated by
`TRFB_PIXEL_FUNCTIONS(bits)`. -/
def trfb_fb_get_pixel (bits : Nat) (fb : trfb_framebuffer) (x y : Nat) : Nat :=
  let c := load_pixel bits fb (pixel_index fb x y)
  unpack_pixel fb c

/-- The pixel word computed by `trfb_fb##bits##_set_pixel` before it is
stored: the right-hand side of its assignment. -/
def pack_pixel (fb : trfb_framebuffer) (col : Nat) : Nat :=
  shl32 ((TRFB_COLOR_R col >>> fb.rnorm) &&& fb.rmask) fb.rshift |||
  shl32 ((TRFB_COLOR_G col >>> fb.gnorm) &&& fb.gmask) fb.gshift |||
  shl32 ((TRFB_COLOR_B col >>> fb.bnorm) &&& fb.bmask) fb.bshift

/-- The function `trfb_fb##bits##_set_pixel` generated by
`TRFB_PIXEL_FUNCTIONS(bits)`. -/
def trfb_fb_set_pixel (bits : Nat) (fb : trfb_framebuffer) (x y col : Nat) :
    trfb_framebuffer :=
  store_pixel bits fb (pixel_index fb x y) (pack_pixel fb col)

def trfb_fb8_get_pixel : trfb_framebuffer → Nat → Nat → Nat := trfb_fb_get_pixel 8
def trfb_fb16_get_pixel : trfb_framebuffer → Nat → Nat → Nat := trfb_fb_get_pixel 16
def trfb_fb32_get_pixel : trfb_framebuffer → Nat → Nat → Nat := trfb_fb_get_pixel 32

def trfb_fb8_set_pixel : trfb_framebuffer → Nat → Nat → Nat → trfb_framebuffer :=
  trfb_fb_set_pixel 8
def trfb_fb16_set_pixel : trfb_framebuffer → Nat → Nat → Nat → trfb_framebuffer :=
  trfb_fb_set_pixel 16
def trfb_fb32_set_pixel : trfb_framebuffer → Nat → Nat → Nat → trfb_framebuffer :=
  trfb_fb_set_pixel 32

/-- The dispatcher `trfb_framebuffer_get_pixel`. -/
def trfb_framebuffer_get_pixel (fb : trfb_framebuffer) (x y : Nat) : Nat :=
  if fb.bpp = 1 then trfb_fb8_get_pixel fb x y
  else if fb.bpp = 2 then trfb_fb16_get_pixel fb x y
  else if fb.bpp = 4 then trfb_fb32_get_pixel fb x y
  else 0

/-- The dispatcher `trfb_framebuffer_set_pixel`. -/
def trfb_framebuffer_set_pixel (fb : trfb_framebuffer) (x y col : Nat) :
    trfb_framebuffer :=
  if fb.bpp = 1 then trfb_fb8_set_pixel fb x y col
  else if fb.bpp = 2 then trfb_fb16_set_pixel fb x y col
  else if fb.bpp = 4 then trfb_fb32_set_pixel fb x y col
  else fb

/-! ## Pixel-format invariant -/

/-- The spec's pixel-format invariant for one channel: `mask << shift`, as a
number, fits in `bpp * 8` bits. -/
def channel_fits (bpp mask shift : Nat) : Prop := mask <<< shift < 2 ^ (bpp * 8)

instance (bpp mask shift : Nat) : Decidable (channel_fits bpp mask shift) := by
  unfold channel_fits; infer_instance

/-- Two channels do not overlap: their shifted masks share no bit. -/
def channels_disjoint (m1 s1 m2 s2 : Nat) : Prop := (m1 <<< s1) &&& (m2 <<< s2) = 0

instance (m1 s1 m2 s2 : Nat) : Decidable (channels_disjoint m1 s1 m2 s2) := by
  unfold channels_disjoint; infer_instance

/-- The pixel-format invariant of the data model: every channel fits in
`bpp * 8` bits and no two channels overlap. -/
def format_invariant (bpp rmask gmask bmask rshift gshift bshift : Nat) : Prop :=
  channel_fits bpp rmask rshift ∧ channel_fits bpp gmask gshift ∧
  channel_fits bpp bmask bshift ∧
  channels_disjoint rmask rshift gmask gshift ∧
  channels_disjoint rmask rshift bmask bshift ∧
  channels_disjoint gmask gshift bmask bshift

instance (bpp rmask gmask bmask rshift gshift bshift : Nat) :
    Decidable (format_invariant bpp rmask gmask bmask rshift gshift bshift) := by
  unfold format_invariant; infer_instance

/-- The pixel-format invariant for the format carried by a framebuffer. -/
def fb_invariant (fb : trfb_framebuffer) : Prop :=
  format_invariant fb.bpp fb.rmask fb.gmask fb.bmask fb.rshift fb.gshift fb.bshift

instance (fb : trfb_framebuffer) : Decidable (fb_invariant fb) := by
  unfold fb_invariant; infer_instance

/-- The byte widths the dispatchers support. -/
def supported_bpp (bpp : Nat) : Prop := bpp = 1 ∨ bpp = 2 ∨ bpp = 4

instance (bpp : Nat) : Decidable (supported_bpp bpp) := by
  unfold supported_bpp; infer_instance

/-- A channel whose mask is `2^k - 1` for some `k ≤ 8` and whose norm is
`8 - k`; the width `k` is recovered as `8 - norm`. -/
def channel_normalized (mask norm : Nat) : Prop := norm ≤ 8 ∧ mask = 2 ^ (8 - norm) - 1

instance (mask norm : Nat) : Decidable (channel_normalized mask norm) := by
  unfold channel_normalized; infer_instance

/-- All three channels of a framebuffer are normalized. -/
def fb_normalized (fb : trfb_framebuffer) : Prop :=
  channel_normalized fb.rmask fb.rnorm ∧ channel_normalized fb.gmask fb.gnorm ∧
  channel_normalized fb.bmask fb.bnorm

instance (fb : trfb_framebuffer) : Decidable (fb_normalized fb) := by
  unfold fb_normalized; infer_instance

/-- A valid format: supported `bpp`, the pixel-format invariant, and
normalized channels. -/
def valid_format (fb : trfb_framebuffer) : Prop :=
  supported_bpp fb.bpp ∧ fb_invariant fb ∧ fb_normalized fb

instance (fb : trfb_framebuffer) : Decidable (valid_format fb) := by
  unfold valid_format; infer_instance

/-- The pixel buffer has one cell per pixel and the `unsigned` index
expression cannot wrap. -/
def fb_sized (fb : trfb_framebuffer) : Prop :=
  fb.pixels.length = fb.width * fb.height ∧ fb.width * fb.height < 2 ^ 32

instance (fb : trfb_framebuffer) : Decidable (fb_sized fb) := by
  unfold fb_sized; infer_instance

/-- Two framebuffers carry the same pixel format. -/
def same_format (a b : trfb_framebuffer) : Prop :=
  a.bpp = b.bpp ∧ a.rmask = b.rmask ∧ a.gmask = b.gmask ∧ a.bmask = b.bmask ∧
  a.rshift = b.rshift ∧ a.gshift = b.gshift ∧ a.bshift = b.bshift ∧
  a.rnorm = b.rnorm ∧ a.gnorm = b.gnorm ∧ a.bnorm = b.bnorm

instance (a b : trfb_framebuffer) : Decidable (same_format a b) := by
  unfold same_format; infer_instance

/-- Two framebuffers have the same width and height. -/
def same_size (a b : trfb_framebuffer) : Prop := a.width = b.width ∧ a.height = b.height

instance (a b : trfb_framebuffer) : Decidable (same_size a b) := by
  unfold same_size; infer_instance

/-- A colour channel `v` rounded to a channel of the given norm and mask:
`((v >> norm) & mask) << norm`. -/
def round_channel (v norm mask : Nat) : Nat := ((v >>> norm) &&& mask) <<< norm

/-- The raw channel of a pixel word scaled to the 0..255 range:
`((raw >> shift) & mask) << norm`. -/
def scale_channel (raw shift mask norm : Nat) : Nat := ((raw >>> shift) &&& mask) <<< norm

/-- The union of the three shifted channel masks of a framebuffer. -/
def channel_bits (fb : trfb_framebuffer) : Nat :=
  (fb.rmask <<< fb.rshift) ||| (fb.gmask <<< fb.gshift) ||| (fb.bmask <<< fb.bshift)

/-- Modelled from the spec: the wire order of a 16-bit pixel ("All multi-byte
integers on the wire are big-endian"); the code that emits rectangles is not in
the sources.  High byte first. -/
def be16_bytes (v : Nat) : List Nat := [v / 256 % 256, v % 256]

/-- The canonical 2-bytes-per-pixel RGB565 layout: the `TRFB_FB16_*` masks and
shifts with norms 3, 2 and 3. -/
def rgb565_layout (fb : trfb_framebuffer) : Prop :=
  fb.bpp = 2 ∧ fb.rmask = TRFB_FB16_RMASK ∧ fb.gmask = TRFB_FB16_GMASK ∧
  fb.bmask = TRFB_FB16_BMASK ∧ fb.rshift = TRFB_FB16_RSHIFT ∧ fb.gshift = TRFB_FB16_GSHIFT ∧
  fb.bshift = TRFB_FB16_BSHIFT ∧ fb.rnorm = 3 ∧ fb.gnorm = 2 ∧ fb.bnorm = 3

instance (fb : trfb_framebuffer) : Decidable (rgb565_layout fb) := by
  unfold rgb565_layout; infer_instance

/-- The canonical 4-bytes-per-pixel RGB888 masks and shifts (`TRFB_FB32_*`). -/
def rgb888_layout (fb : trfb_framebuffer) : Prop :=
  fb.bpp = 4 ∧ fb.rmask = TRFB_FB32_RMASK ∧ fb.gmask = TRFB_FB32_GMASK ∧
  fb.bmask = TRFB_FB32_BMASK ∧ fb.rshift = TRFB_FB32_RSHIFT ∧ fb.gshift = TRFB_FB32_GSHIFT ∧
  fb.bshift = TRFB_FB32_BSHIFT

instance (fb : trfb_framebuffer) : Decidable (rgb888_layout fb) := by
  unfold rgb888_layout; infer_instance

/-- The pixel word held by the cell of pixel `(x, y)`. -/
def stored_pixel (fb : trfb_framebuffer) (x y : Nat) : Nat :=
  fb.pixels.getD (pixel_index fb x y) 0

/-- The colour a framebuffer of this format reads back from a pixel after
colour `c` was stored in it: the stored word of the setter, unpacked by the
getter. -/
def readback (fb : trfb_framebuffer) (c : Nat) : Nat :=
  unpack_pixel fb (pack_pixel fb c % 2 ^ (fb.bpp * 8))

/-- Two framebuffers agree in size, format and buffer length. -/
def same_frame (a b : trfb_framebuffer) : Prop :=
  same_size a b ∧ same_format a b ∧ a.pixels.length = b.pixels.length

/-! ## Conversion -/

/-- One row of the conversion: every pixel of row `y` is read from `src` with
`trfb_framebuffer_get_pixel` and written to `dst` with
`trfb_framebuffer_set_pixel`. -/
def convert_row (src : trfb_framebuffer) (y : Nat) (dst : trfb_framebuffer) :
    trfb_framebuffer :=
  (List.range src.width).foldl
    (fun d x => trfb_framebuffer_set_pixel d x y (trfb_framebuffer_get_pixel src x y)) dst

/-- Modelled from the spec: `trfb_framebuffer_convert` is declared in `trfb.h`
but its body is not in the sources.  The spec describes it as a "pixel-wise
repaint: for each pixel, extract (R,G,B) using src's masks/shifts and
normalization, then repack with dst's", with the precondition that both
framebuffers have the same width and height.  The result is the repainted
destination. -/
def trfb_framebuffer_convert (dst src : trfb_framebuffer) : trfb_framebuffer :=
  (List.range src.height).foldl (fun d y => convert_row src y d) dst

/-- The round trip of the spec's testable property: `convert(dst, src)`
followed by `convert(src2, dst)`. -/
def convert_roundtrip (src dst src2 : trfb_framebuffer) : trfb_framebuffer :=
  trfb_framebuffer_convert src2 (trfb_framebuffer_convert dst src)

/-! ## Buffered I/O -/

/-- The struct `trfb_io` without its context pointer and callbacks.  The
fields `rlen`, `rpos` and `wlen` are `size_t`; the fast paths below only
increment a value that is strictly below another `size_t`, so no wrap-around
is modelled. -/
structure trfb_io_t where
  error : Int
  rbuf : List Nat
  rlen : Nat
  rpos : Nat
  wbuf : List Nat
  wlen : Nat
deriving DecidableEq, Repr

/-- The macro `trfb_io_getc(io, timeout)`.  The function `trfb_io_fgetc` is
only declared in `trfb.h`, so it is a parameter.  The result is the value of
the expression together with the handle after the call. -/
def trfb_io_getc (trfb_io_fgetc : trfb_io_t → Nat → Int × trfb_io_t)
    (io : trfb_io_t) (timeout : Nat) : Int × trfb_io_t :=
  if io.rpos < io.rlen then
    (((io.rbuf.getD io.rpos 0 % 256 : Nat) : Int), { io with rpos := io.rpos + 1 })
  else trfb_io_fgetc io timeout

/-- The macro `trfb_io_putc(c, io, timeout)`.  The function `trfb_io_fputc`
is only declared in `trfb.h`, so it is a parameter; its first parameter is an
`unsigned char`, as is a cell of `wbuf`. -/
def trfb_io_putc (trfb_io_fputc : Nat → trfb_io_t → Nat → Int × trfb_io_t)
    (c : Nat) (io : trfb_io_t) (timeout : Nat) : Int × trfb_io_t :=
  if io.wlen < TRFB_BUFSIZ then
    (((c % 256 : Nat) : Int),
      { io with wbuf := io.wbuf.set io.wlen (c % 256), wlen := io.wlen + 1 })
  else trfb_io_fputc (c % 256) io timeout

/-- Consecutive calls: `n` uses of `trfb_io_getc` on the same handle, with the
values they return in order. -/
def getc_repeat (trfb_io_fgetc : trfb_io_t → Nat → Int × trfb_io_t) :
    Nat → trfb_io_t → Nat → List Int × trfb_io_t
  | 0, io, _ => ([], io)
  | n + 1, io, timeout =>
    let r := trfb_io_getc trfb_io_fgetc io timeout
    let rest := getc_repeat trfb_io_fgetc n r.2 timeout
    (r.1 :: rest.1, rest.2)

/-- The handle's buffers have their declared type
`unsigned char [TRFB_BUFSIZ]`: `TRFB_BUFSIZ` cells, each below 256. -/
def io_sized (io : trfb_io_t) : Prop :=
  io.rbuf.length = TRFB_BUFSIZ ∧ io.wbuf.length = TRFB_BUFSIZ ∧
  (∀ b ∈ io.rbuf, b < 256) ∧ (∀ b ∈ io.wbuf, b < 256)

/-! ## Example values -/

/-- A one-pixel framebuffer in the canonical RGB888 layout holding `raw`. -/
def fb32_example (raw : Nat) : trfb_framebuffer :=
  { width := 1, height := 1, bpp := 4,
    rmask := TRFB_FB32_RMASK, gmask := TRFB_FB32_GMASK, bmask := TRFB_FB32_BMASK,
    rshift := TRFB_FB32_RSHIFT, gshift := TRFB_FB32_GSHIFT, bshift := TRFB_FB32_BSHIFT,
    rnorm := 0, gnorm := 0, bnorm := 0, pixels := [raw], free_pixels := 1 }

/-- A one-pixel framebuffer in the canonical RGB565 layout holding `raw`. -/
def fb16_example (raw : Nat) : trfb_framebuffer :=
  { width := 1, height := 1, bpp := 2,
    rmask := TRFB_FB16_RMASK, gmask := TRFB_FB16_GMASK, bmask := TRFB_FB16_BMASK,
    rshift := TRFB_FB16_RSHIFT, gshift := TRFB_FB16_GSHIFT, bshift := TRFB_FB16_BSHIFT,
    rnorm := 3, gnorm := 2, bnorm := 3, pixels := [raw], free_pixels := 1 }

/-- A 2x2 framebuffer in the canonical BGR233 layout. -/
def fb8_example : trfb_framebuffer :=
  { width := 2, height := 2, bpp := 1,
    rmask := TRFB_FB8_RMASK, gmask := TRFB_FB8_GMASK, bmask := TRFB_FB8_BMASK,
    rshift := TRFB_FB8_RSHIFT, gshift := TRFB_FB8_GSHIFT, bshift := TRFB_FB8_BSHIFT,
    rnorm := 5, gnorm := 5, bnorm := 6, pixels := [0x11, 0x22, 0x33, 0x44], free_pixels := 1 }

/-- A framebuffer with the unsupported `bpp = 3`. -/
def fb24_example : trfb_framebuffer :=
  { fb32_example 0x123456 with bpp := 3 }

/-- An I/O handle with three buffered bytes pending and two bytes queued for
writing. -/
def io_example : trfb_io_t :=
  { error := 0, rbuf := [10, 20, 30, 40] ++ List.replicate 2044 0, rlen := 4, rpos := 1,
    wbuf := [7, 8] ++ List.replicate 2046 0, wlen := 2 }

/-- A stand-in for the slow paths in examples: reports `TRFB_EOF` and marks
the handle as failed. -/
def fgetc_example (io : trfb_io_t) (_timeout : Nat) : Int × trfb_io_t :=
  ((TRFB_EOF : Int), { io with error := 1 })

/-- A stand-in for `trfb_io_fputc` in examples. -/
def fputc_example (_c : Nat) (io : trfb_io_t) (_timeout : Nat) : Int × trfb_io_t :=
  ((TRFB_EOF : Int), { io with error := 1 })

/-- A handle whose write buffer is full. -/
def io_full_example : trfb_io_t :=
  { io_example with wlen := 2048 }

/-! ## Bit-level lemmas -/

theorem shiftLeft_and_le (a m s : Nat) : (a &&& m) <<< s ≤ m <<< s := by
  rw [Nat.shiftLeft_eq, Nat.shiftLeft_eq]
  exact Nat.mul_le_mul_right _ Nat.and_le_right

theorem two_pow_bpp_le (bpp : Nat) (h : supported_bpp bpp) : 2 ^ (bpp * 8) ≤ 2 ^ 32 := by
  apply Nat.pow_le_pow_right (by decide)
  rcases h with h | h | h <;> omega

theorem shl32_and_eq (a m s bpp : Nat) (hb : supported_bpp bpp)
    (hfit : channel_fits bpp m s) : shl32 (a &&& m) s = (a &&& m) <<< s := by
  unfold shl32
  apply Nat.mod_eq_of_lt
  have h1 := shiftLeft_and_le a m s
  have h2 := two_pow_bpp_le bpp hb
  unfold channel_fits at hfit
  omega

theorem testBit_shl_and (a m s j : Nat) (h : ((a &&& m) <<< s).testBit j = true) :
    (m <<< s).testBit j = true := by
  simp only [Nat.testBit_shiftLeft, Nat.testBit_and, Bool.and_eq_true, decide_eq_true_eq] at h ⊢
  exact ⟨h.1, h.2.2⟩

theorem disjoint_testBit (m1 s1 m2 s2 j : Nat) (h : channels_disjoint m1 s1 m2 s2)
    (h1 : (m1 <<< s1).testBit j = true) : (m2 <<< s2).testBit j = false := by
  unfold channels_disjoint at h
  have := congrArg (fun n => n.testBit j) h
  simp only [Nat.testBit_and, Nat.zero_testBit, h1, Bool.true_and] at this
  exact this

theorem channels_disjoint_symm (m1 s1 m2 s2 : Nat) (h : channels_disjoint m1 s1 m2 s2) :
    channels_disjoint m2 s2 m1 s1 := by
  unfold channels_disjoint at h ⊢
  rw [Nat.land_comm]; exact h

/-- Reading a channel back out of a word in which the other bits `p` avoid the
channel's shifted mask. -/
theorem extract_channel (a m s p : Nat)
    (hp : ∀ j, p.testBit j = true → (m <<< s).testBit j = false) :
    ((((a &&& m) <<< s) ||| p) >>> s) &&& m = a &&& m := by
  apply Nat.eq_of_testBit_eq
  intro i
  have hpi := hp (s + i)
  simp only [Nat.testBit_shiftLeft, Nat.testBit_and, Nat.testBit_or, Nat.testBit_shiftRight,
    Nat.add_sub_cancel_left, Nat.le_add_right, decide_True, Bool.true_and] at hpi ⊢
  cases hm : m.testBit i <;> cases ha : a.testBit i <;> cases hq : p.testBit (s + i) <;>
    simp_all

theorem or_testBit_avoid (p q m s : Nat)
    (hp : ∀ j, p.testBit j = true → (m <<< s).testBit j = false)
    (hq : ∀ j, q.testBit j = true → (m <<< s).testBit j = false) :
    ∀ j, (p ||| q).testBit j = true → (m <<< s).testBit j = false := by
  intro j h
  rw [Nat.testBit_or, Bool.or_eq_true] at h
  rcases h with h | h
  · exact hp j h
  · exact hq j h

theorem channel_avoid (a m1 s1 m2 s2 : Nat) (h : channels_disjoint m1 s1 m2 s2) :
    ∀ j, ((a &&& m1) <<< s1).testBit j = true → (m2 <<< s2).testBit j = false :=
  fun j hj => disjoint_testBit m1 s1 m2 s2 j h (testBit_shl_and a m1 s1 j hj)

theorem round_channel_le (v n m : Nat) : round_channel v n m ≤ v := by
  unfold round_channel
  rw [Nat.shiftLeft_eq]
  have h1 : (v >>> n) &&& m ≤ v >>> n := Nat.and_le_left
  have h2 : (v >>> n) * 2 ^ n ≤ v := by
    rw [Nat.shiftRight_eq_div_pow]; exact Nat.div_mul_le_self v (2 ^ n)
  calc (v >>> n &&& m) * 2 ^ n ≤ (v >>> n) * 2 ^ n := Nat.mul_le_mul_right _ h1
    _ ≤ v := h2

theorem TRFB_COLOR_R_lt (c : Nat) : TRFB_COLOR_R c < 256 := by
  unfold TRFB_COLOR_R TRFB_FB32_RMASK
  exact Nat.lt_of_le_of_lt Nat.and_le_right (by decide)

theorem TRFB_COLOR_G_lt (c : Nat) : TRFB_COLOR_G c < 256 := by
  unfold TRFB_COLOR_G TRFB_FB32_GMASK
  exact Nat.lt_of_le_of_lt Nat.and_le_right (by decide)

theorem TRFB_COLOR_B_lt (c : Nat) : TRFB_COLOR_B c < 256 := by
  unfold TRFB_COLOR_B TRFB_FB32_BMASK
  exact Nat.lt_of_le_of_lt Nat.and_le_right (by decide)

theorem shl32_round (v n m : Nat) (hv : v < 256) :
    shl32 ((v >>> n) &&& m) n = round_channel v n m := by
  have h := round_channel_le v n m
  unfold shl32
  unfold round_channel at h ⊢
  apply Nat.mod_eq_of_lt
  omega

/-! ## The dispatchers on supported widths -/

theorem set_pixel_supported (fb : trfb_framebuffer) (x y c : Nat) (h : supported_bpp fb.bpp) :
    trfb_framebuffer_set_pixel fb x y c =
      store_pixel (fb.bpp * 8) fb (pixel_index fb x y) (pack_pixel fb c) := by
  unfold trfb_framebuffer_set_pixel trfb_fb8_set_pixel trfb_fb16_set_pixel trfb_fb32_set_pixel
    trfb_fb_set_pixel
  rcases h with h | h | h <;> simp [h]

theorem get_pixel_supported (fb : trfb_framebuffer) (x y : Nat) (h : supported_bpp fb.bpp) :
    trfb_framebuffer_get_pixel fb x y =
      unpack_pixel fb (load_pixel (fb.bpp * 8) fb (pixel_index fb x y)) := by
  unfold trfb_framebuffer_get_pixel trfb_fb8_get_pixel trfb_fb16_get_pixel trfb_fb32_get_pixel
    trfb_fb_get_pixel
  rcases h with h | h | h <;> simp [h]

theorem pixel_index_store (bits : Nat) (fb : trfb_framebuffer) (i v x y : Nat) :
    pixel_index (store_pixel bits fb i v) x y = pixel_index fb x y := rfl

theorem unpack_pixel_store (bits : Nat) (fb : trfb_framebuffer) (i v c : Nat) :
    unpack_pixel (store_pixel bits fb i v) c = unpack_pixel fb c := rfl

theorem load_store_same (bits : Nat) (fb : trfb_framebuffer) (i v : Nat)
    (hi : i < fb.pixels.length) :
    load_pixel bits (store_pixel bits fb i v) i = v % 2 ^ bits := by
  unfold load_pixel store_pixel
  simp [List.getD_eq_getElem?_getD, hi]

theorem load_store_other (bits : Nat) (fb : trfb_framebuffer) (i j v : Nat) (hij : i ≠ j) :
    load_pixel bits (store_pixel bits fb i v) j = load_pixel bits fb j := by
  unfold load_pixel store_pixel
  simp [List.getD_eq_getElem?_getD, List.getElem?_set_ne hij]

theorem pixel_index_lt (fb : trfb_framebuffer) (x y : Nat) (hx : x < fb.width)
    (hy : y < fb.height) : pixel_index fb x y < fb.width * fb.height := by
  unfold pixel_index
  have h1 : y * fb.width + x < fb.width * fb.height := by
    have : (y + 1) * fb.width ≤ fb.height * fb.width := Nat.mul_le_mul_right _ hy
    rw [Nat.mul_comm fb.width fb.height]
    rw [Nat.add_mul, Nat.one_mul] at this
    omega
  exact Nat.lt_of_le_of_lt (Nat.mod_le _ _) h1

theorem pixel_index_eq (fb : trfb_framebuffer) (x y : Nat) (hx : x < fb.width)
    (hy : y < fb.height) (hsz : fb.width * fb.height < 2 ^ 32) :
    pixel_index fb x y = y * fb.width + x := by
  unfold pixel_index
  apply Nat.mod_eq_of_lt
  have h1 : y * fb.width + x < fb.width * fb.height := by
    have : (y + 1) * fb.width ≤ fb.height * fb.width := Nat.mul_le_mul_right _ hy
    rw [Nat.mul_comm fb.width fb.height]
    rw [Nat.add_mul, Nat.one_mul] at this
    omega
  omega

theorem pixel_index_inj (fb : trfb_framebuffer) (x y x2 y2 : Nat)
    (hx : x < fb.width) (hy : y < fb.height) (hx2 : x2 < fb.width) (hy2 : y2 < fb.height)
    (hsz : fb.width * fb.height < 2 ^ 32)
    (h : pixel_index fb x y = pixel_index fb x2 y2) : x = x2 ∧ y = y2 := by
  rw [pixel_index_eq fb x y hx hy hsz, pixel_index_eq fb x2 y2 hx2 hy2 hsz] at h
  have hw : 0 < fb.width := by omega
  have e1 : (y * fb.width + x) / fb.width = y := by
    rw [Nat.mul_comm, Nat.mul_add_div hw, Nat.div_eq_of_lt hx]; rfl
  have e2 : (y2 * fb.width + x2) / fb.width = y2 := by
    rw [Nat.mul_comm, Nat.mul_add_div hw, Nat.div_eq_of_lt hx2]; rfl
  have hyy : y = y2 := by rw [← e1, ← e2, h]
  subst hyy
  exact ⟨by omega, rfl⟩

/-! ## Packing and unpacking -/

/-- The packed word without the 32-bit reductions, valid when every channel
fits. -/
theorem pack_pixel_eq (fb : trfb_framebuffer) (c : Nat) (hb : supported_bpp fb.bpp)
    (hinv : fb_invariant fb) :
    pack_pixel fb c =
      (((TRFB_COLOR_R c >>> fb.rnorm) &&& fb.rmask) <<< fb.rshift) |||
      (((TRFB_COLOR_G c >>> fb.gnorm) &&& fb.gmask) <<< fb.gshift) |||
      (((TRFB_COLOR_B c >>> fb.bnorm) &&& fb.bmask) <<< fb.bshift) := by
  obtain ⟨hr, hg, hbl, -, -, -⟩ := hinv
  unfold pack_pixel
  rw [shl32_and_eq _ _ _ _ hb hr, shl32_and_eq _ _ _ _ hb hg, shl32_and_eq _ _ _ _ hb hbl]

theorem pack_pixel_lt (fb : trfb_framebuffer) (c : Nat) (hb : supported_bpp fb.bpp)
    (hinv : fb_invariant fb) : pack_pixel fb c < 2 ^ (fb.bpp * 8) := by
  rw [pack_pixel_eq fb c hb hinv]
  obtain ⟨hr, hg, hbl, -, -, -⟩ := hinv
  unfold channel_fits at hr hg hbl
  have h1 := shiftLeft_and_le (TRFB_COLOR_R c >>> fb.rnorm) fb.rmask fb.rshift
  have h2 := shiftLeft_and_le (TRFB_COLOR_G c >>> fb.gnorm) fb.gmask fb.gshift
  have h3 := shiftLeft_and_le (TRFB_COLOR_B c >>> fb.bnorm) fb.bmask fb.bshift
  exact Nat.or_lt_two_pow (Nat.or_lt_two_pow (by omega) (by omega)) (by omega)

/-- Unpacking a packed word gives back every channel rounded to the channel
width. -/
theorem unpack_pack (fb : trfb_framebuffer) (c : Nat) (hb : supported_bpp fb.bpp)
    (hinv : fb_invariant fb) :
    unpack_pixel fb (pack_pixel fb c) =
      TRFB_RGB (round_channel (TRFB_COLOR_R c) fb.rnorm fb.rmask)
        (round_channel (TRFB_COLOR_G c) fb.gnorm fb.gmask)
        (round_channel (TRFB_COLOR_B c) fb.bnorm fb.bmask) := by
  rw [pack_pixel_eq fb c hb hinv]
  obtain ⟨-, -, -, hrg, hrb, hgb⟩ := hinv
  have hgr := channels_disjoint_symm _ _ _ _ hrg
  have hbr := channels_disjoint_symm _ _ _ _ hrb
  have hbg := channels_disjoint_symm _ _ _ _ hgb
  unfold unpack_pixel
  have er : ((((TRFB_COLOR_R c >>> fb.rnorm) &&& fb.rmask) <<< fb.rshift |||
      ((TRFB_COLOR_G c >>> fb.gnorm) &&& fb.gmask) <<< fb.gshift |||
      ((TRFB_COLOR_B c >>> fb.bnorm) &&& fb.bmask) <<< fb.bshift) >>> fb.rshift) &&& fb.rmask
      = (TRFB_COLOR_R c >>> fb.rnorm) &&& fb.rmask := by
    rw [Nat.lor_assoc]
    exact extract_channel _ _ _ _
      (or_testBit_avoid _ _ _ _ (channel_avoid _ _ _ _ _ hgr) (channel_avoid _ _ _ _ _ hbr))
  have eg : ((((TRFB_COLOR_R c >>> fb.rnorm) &&& fb.rmask) <<< fb.rshift |||
      ((TRFB_COLOR_G c >>> fb.gnorm) &&& fb.gmask) <<< fb.gshift |||
      ((TRFB_COLOR_B c >>> fb.bnorm) &&& fb.bmask) <<< fb.bshift) >>> fb.gshift) &&& fb.gmask
      = (TRFB_COLOR_G c >>> fb.gnorm) &&& fb.gmask := by
    rw [Nat.lor_comm (((TRFB_COLOR_R c >>> fb.rnorm) &&& fb.rmask) <<< fb.rshift), Nat.lor_assoc]
    exact extract_channel _ _ _ _
      (or_testBit_avoid _ _ _ _ (channel_avoid _ _ _ _ _ hrg) (channel_avoid _ _ _ _ _ hbg))
  have eb : ((((TRFB_COLOR_R c >>> fb.rnorm) &&& fb.rmask) <<< fb.rshift |||
      ((TRFB_COLOR_G c >>> fb.gnorm) &&& fb.gmask) <<< fb.gshift |||
      ((TRFB_COLOR_B c >>> fb.bnorm) &&& fb.bmask) <<< fb.bshift) >>> fb.bshift) &&& fb.bmask
      = (TRFB_COLOR_B c >>> fb.bnorm) &&& fb.bmask := by
    rw [Nat.lor_comm]
    exact extract_channel _ _ _ _
      (or_testBit_avoid _ _ _ _ (channel_avoid _ _ _ _ _ hrb) (channel_avoid _ _ _ _ _ hgb))
  rw [er, eg, eb, shl32_round _ _ _ (TRFB_COLOR_R_lt c), shl32_round _ _ _ (TRFB_COLOR_G_lt c),
    shl32_round _ _ _ (TRFB_COLOR_B_lt c)]

/-- What a set followed by a get of the same in-range pixel returns, in terms
of packing and unpacking. -/
theorem get_set_same (fb : trfb_framebuffer) (x y c : Nat) (hb : supported_bpp fb.bpp)
    (hi : pixel_index fb x y < fb.pixels.length) :
    trfb_framebuffer_get_pixel (trfb_framebuffer_set_pixel fb x y c) x y =
      unpack_pixel fb (pack_pixel fb c % 2 ^ (fb.bpp * 8)) := by
  rw [set_pixel_supported fb x y c hb]
  rw [get_pixel_supported _ x y (by exact hb)]
  rw [pixel_index_store, unpack_pixel_store]
  show unpack_pixel fb (load_pixel (fb.bpp * 8) (store_pixel (fb.bpp * 8) fb _ _) _) = _
  rw [load_store_same _ _ _ _ hi]

theorem color_mod_24 (c : Nat) :
    TRFB_COLOR_R (c % 2 ^ 24) = TRFB_COLOR_R c ∧ TRFB_COLOR_G (c % 2 ^ 24) = TRFB_COLOR_G c ∧
    TRFB_COLOR_B (c % 2 ^ 24) = TRFB_COLOR_B c := by
  have hm : ∀ i, (255 : Nat).testBit i = decide (i < 8) := by
    intro i
    have := Nat.testBit_two_pow_sub_one 8 i
    simpa using this
  refine ⟨?_, ?_, ?_⟩ <;>
  · apply Nat.eq_of_testBit_eq
    intro i
    simp only [TRFB_COLOR_R, TRFB_COLOR_G, TRFB_COLOR_B, TRFB_FB32_RSHIFT, TRFB_FB32_GSHIFT,
      TRFB_FB32_BSHIFT, TRFB_FB32_RMASK, TRFB_FB32_GMASK, TRFB_FB32_BMASK, Nat.testBit_and,
      Nat.testBit_shiftRight, Nat.testBit_mod_two_pow, hm]
    by_cases h : i < 8
    · have h1 : 16 + i < 24 := by omega
      have h2 : 8 + i < 24 := by omega
      have h3 : i < 24 := by omega
      simp [h, h1, h2, h3]
    · simp [h]

/-- A colour built from three channels below 256 is their concatenation. -/
theorem TRFB_RGB_eq (r g b : Nat) (hr : r < 256) (hg : g < 256) (hb : b < 256) :
    TRFB_RGB r g b = r * 65536 + g * 256 + b := by
  unfold TRFB_RGB shl32 u32
  rw [Nat.mod_eq_of_lt (a := b) (by omega), Nat.shiftLeft_eq, Nat.shiftLeft_eq,
    Nat.mod_eq_of_lt (a := r * 2 ^ 16) (by omega), Nat.mod_eq_of_lt (a := g * 2 ^ 8) (by omega)]
  have e1 : g * 2 ^ 8 ||| b = g * 2 ^ 8 + b := by
    rw [Nat.mul_comm g, ← Nat.mul_add_lt_is_or (by omega)]
  have e2 : r * 2 ^ 16 ||| (g * 2 ^ 8 + b) = r * 2 ^ 16 + (g * 2 ^ 8 + b) := by
    rw [Nat.mul_comm r, ← Nat.mul_add_lt_is_or (by omega)]
  rw [Nat.lor_assoc, e1, e2]
  omega

theorem TRFB_RGB_lt (r g b : Nat) (hr : r < 256) (hg : g < 256) (hb : b < 256) :
    TRFB_RGB r g b < 2 ^ 24 := by
  rw [TRFB_RGB_eq r g b hr hg hb]; omega

theorem and_255 (x : Nat) : x &&& 255 = x % 256 := by
  have := Nat.and_pow_two_sub_one_eq_mod x 8
  simpa using this

/-- The three channels of `TRFB_RGB(r, g, b)` are `r`, `g` and `b` when each is
below 256. -/
theorem TRFB_COLOR_of_RGB (r g b : Nat) (hr : r < 256) (hg : g < 256) (hb : b < 256) :
    TRFB_COLOR_R (TRFB_RGB r g b) = r ∧ TRFB_COLOR_G (TRFB_RGB r g b) = g ∧
    TRFB_COLOR_B (TRFB_RGB r g b) = b := by
  rw [TRFB_RGB_eq r g b hr hg hb]
  unfold TRFB_COLOR_R TRFB_COLOR_G TRFB_COLOR_B TRFB_FB32_RSHIFT TRFB_FB32_GSHIFT
    TRFB_FB32_BSHIFT TRFB_FB32_RMASK TRFB_FB32_GMASK TRFB_FB32_BMASK
  simp only [and_255, Nat.shiftRight_eq_div_pow]
  refine ⟨?_, ?_, ?_⟩ <;> omega

/-! ## Claims about the pixel accessors -/

/-- C1: on a framebuffer with a supported `bpp` whose channels fit in
`bpp * 8` bits and do not overlap, setting an in-range pixel to colour `c` and
getting it back returns `TRFB_RGB(r', g', b')`, where each 8-bit channel `v` of
`c` reads back as `((v >> norm) & mask) << norm`; bits 24..31 of `c` play no
part. -/
theorem set_get_roundtrip (fb : trfb_framebuffer) (x y c : Nat)
    (hb : supported_bpp fb.bpp) (hinv : fb_invariant fb)
    (hx : x < fb.width) (hy : y < fb.height)
    (hlen : fb.pixels.length = fb.width * fb.height) :
    trfb_framebuffer_get_pixel (trfb_framebuffer_set_pixel fb x y c) x y =
      TRFB_RGB (round_channel (TRFB_COLOR_R c) fb.rnorm fb.rmask)
        (round_channel (TRFB_COLOR_G c) fb.gnorm fb.gmask)
        (round_channel (TRFB_COLOR_B c) fb.bnorm fb.bmask) ∧
    trfb_framebuffer_get_pixel (trfb_framebuffer_set_pixel fb x y c) x y =
      trfb_framebuffer_get_pixel (trfb_framebuffer_set_pixel fb x y (c % 2 ^ 24)) x y := by
  have hi : pixel_index fb x y < fb.pixels.length := by
    rw [hlen]; exact pixel_index_lt fb x y hx hy
  have key : ∀ d, trfb_framebuffer_get_pixel (trfb_framebuffer_set_pixel fb x y d) x y =
      TRFB_RGB (round_channel (TRFB_COLOR_R d) fb.rnorm fb.rmask)
        (round_channel (TRFB_COLOR_G d) fb.gnorm fb.gmask)
        (round_channel (TRFB_COLOR_B d) fb.bnorm fb.bmask) := by
    intro d
    rw [get_set_same fb x y d hb hi, Nat.mod_eq_of_lt (pack_pixel_lt fb d hb hinv),
      unpack_pack fb d hb hinv]
  refine ⟨key c, ?_⟩
  obtain ⟨e1, e2, e3⟩ := color_mod_24 c
  rw [key c, key (c % 2 ^ 24), e1, e2, e3]

/-- C1 at a concrete input: the 2x2 BGR233 framebuffer, pixel (1,1), colour
`0xFFFFFFFF`. -/
theorem set_get_roundtrip_witness :
    trfb_framebuffer_get_pixel (trfb_framebuffer_set_pixel fb8_example 1 1 0xFFFFFFFF) 1 1 =
      TRFB_RGB (round_channel (TRFB_COLOR_R 0xFFFFFFFF) 5 7)
        (round_channel (TRFB_COLOR_G 0xFFFFFFFF) 5 7)
        (round_channel (TRFB_COLOR_B 0xFFFFFFFF) 6 3) ∧
    trfb_framebuffer_get_pixel (trfb_framebuffer_set_pixel fb8_example 1 1 0xFFFFFFFF) 1 1 =
      trfb_framebuffer_get_pixel
        (trfb_framebuffer_set_pixel fb8_example 1 1 (0xFFFFFFFF % 2 ^ 24)) 1 1 :=
  set_get_roundtrip fb8_example 1 1 0xFFFFFFFF (by decide) (by decide) (by decide) (by decide)
    (by decide)

theorem stored_pixel_set (fb : trfb_framebuffer) (x y c : Nat) (hb : supported_bpp fb.bpp)
    (hi : pixel_index fb x y < fb.pixels.length) :
    stored_pixel (trfb_framebuffer_set_pixel fb x y c) x y =
      pack_pixel fb c % 2 ^ (fb.bpp * 8) := by
  rw [set_pixel_supported fb x y c hb]
  unfold stored_pixel
  rw [pixel_index_store]
  unfold store_pixel
  simp [List.getD_eq_getElem?_getD, hi]

theorem rgb565_word (r g b : Nat) (hr : r < 256) (hg : g < 256) (hb : b < 256) :
    (shl32 ((r >>> 3) &&& 0x1f) 11 ||| shl32 ((g >>> 2) &&& 0x3f) 5 |||
      shl32 ((b >>> 3) &&& 0x1f) 0) % 2 ^ (2 * 8) =
    ((r >>> 3) <<< 11) ||| ((g >>> 2) <<< 5) ||| (b >>> 3) := by
  have e31 : ∀ v, v &&& 0x1f = v % 32 := fun v => by
    have := Nat.and_pow_two_sub_one_eq_mod v 5; simpa using this
  have e63 : ∀ v, v &&& 0x3f = v % 64 := fun v => by
    have := Nat.and_pow_two_sub_one_eq_mod v 6; simpa using this
  have hr3 : r >>> 3 < 32 := by rw [Nat.shiftRight_eq_div_pow]; omega
  have hg2 : g >>> 2 < 64 := by rw [Nat.shiftRight_eq_div_pow]; omega
  have hb3 : b >>> 3 < 32 := by rw [Nat.shiftRight_eq_div_pow]; omega
  rw [e31, e63, e31, Nat.mod_eq_of_lt hr3, Nat.mod_eq_of_lt hg2, Nat.mod_eq_of_lt hb3]
  have s1 : (r >>> 3) <<< 11 < 2 ^ 16 := by rw [Nat.shiftLeft_eq]; omega
  have s2 : (g >>> 2) <<< 5 < 2 ^ 16 := by rw [Nat.shiftLeft_eq]; omega
  have s3 : (b >>> 3) <<< 0 < 2 ^ 16 := by rw [Nat.shiftLeft_eq]; omega
  unfold shl32
  rw [Nat.mod_eq_of_lt (a := (r >>> 3) <<< 11) (by omega),
    Nat.mod_eq_of_lt (a := (g >>> 2) <<< 5) (by omega),
    Nat.mod_eq_of_lt (a := (b >>> 3) <<< 0) (by omega)]
  rw [Nat.mod_eq_of_lt (Nat.or_lt_two_pow (Nat.or_lt_two_pow s1 s2) s3)]
  rfl

/-- C3: in the canonical RGB565 layout (norms 3/2/3) setting an in-range pixel
to the colour `TRFB_RGB(r, g, b)` stores the word
`((r>>3)<<11) | ((g>>2)<<5) | (b>>3)`; for `TRFB_RGB(255, 0, 0)` the stored word
is `0xF800`, whose big-endian bytes are `F8 00`. -/
theorem rgb565_stored_word (fb : trfb_framebuffer) (x y r g b : Nat)
    (hfmt : rgb565_layout fb) (hx : x < fb.width) (hy : y < fb.height)
    (hlen : fb.pixels.length = fb.width * fb.height)
    (hr : r < 256) (hg : g < 256) (hb : b < 256) :
    stored_pixel (trfb_framebuffer_set_pixel fb x y (TRFB_RGB r g b)) x y =
      (((r >>> 3) <<< 11) ||| ((g >>> 2) <<< 5) ||| (b >>> 3)) ∧
    stored_pixel (trfb_fb16_set_pixel fb x y (TRFB_RGB r g b)) x y =
      (((r >>> 3) <<< 11) ||| ((g >>> 2) <<< 5) ||| (b >>> 3)) ∧
    stored_pixel (trfb_framebuffer_set_pixel fb x y (TRFB_RGB 255 0 0)) x y = 0xF800 ∧
    be16_bytes (stored_pixel (trfb_framebuffer_set_pixel fb x y (TRFB_RGB 255 0 0)) x y) =
      [0xF8, 0x00] := by
  obtain ⟨h2, hrm, hgm, hbm, hrs, hgs, hbs, hrn, hgn, hbn⟩ := hfmt
  have hsup : supported_bpp fb.bpp := Or.inr (Or.inl h2)
  have hi : pixel_index fb x y < fb.pixels.length := by
    rw [hlen]; exact pixel_index_lt fb x y hx hy
  have key : ∀ r g b, r < 256 → g < 256 → b < 256 →
      stored_pixel (trfb_framebuffer_set_pixel fb x y (TRFB_RGB r g b)) x y =
        (((r >>> 3) <<< 11) ||| ((g >>> 2) <<< 5) ||| (b >>> 3)) := by
    intro r g b hr hg hb
    obtain ⟨e1, e2, e3⟩ := TRFB_COLOR_of_RGB r g b hr hg hb
    rw [stored_pixel_set fb x y _ hsup hi]
    unfold pack_pixel
    rw [e1, e2, e3, h2, hrm, hgm, hbm, hrs, hgs, hbs, hrn, hgn, hbn]
    exact rgb565_word r g b hr hg hb
  have same : ∀ c, trfb_fb16_set_pixel fb x y c = trfb_framebuffer_set_pixel fb x y c := by
    intro c; unfold trfb_framebuffer_set_pixel; simp [h2]
  have red := key 255 0 0 (by decide) (by decide) (by decide)
  refine ⟨key r g b hr hg hb, ?_, ?_, ?_⟩
  · rw [same]; exact key r g b hr hg hb
  · rw [red]; rfl
  · rw [red]; rfl

/-- C3 at a concrete input: the one-pixel RGB565 framebuffer and the colour
`TRFB_RGB(18, 52, 86)`. -/
theorem rgb565_stored_word_witness :
    stored_pixel (trfb_framebuffer_set_pixel (fb16_example 0xFFFF) 0 0 (TRFB_RGB 18 52 86)) 0 0 =
      (((18 >>> 3) <<< 11) ||| ((52 >>> 2) <<< 5) ||| (86 >>> 3)) ∧
    stored_pixel (trfb_fb16_set_pixel (fb16_example 0xFFFF) 0 0 (TRFB_RGB 18 52 86)) 0 0 =
      (((18 >>> 3) <<< 11) ||| ((52 >>> 2) <<< 5) ||| (86 >>> 3)) ∧
    stored_pixel (trfb_framebuffer_set_pixel (fb16_example 0xFFFF) 0 0 (TRFB_RGB 255 0 0)) 0 0 =
      0xF800 ∧
    be16_bytes
      (stored_pixel (trfb_framebuffer_set_pixel (fb16_example 0xFFFF) 0 0 (TRFB_RGB 255 0 0)) 0 0) =
      [0xF8, 0x00] :=
  rgb565_stored_word (fb16_example 0xFFFF) 0 0 18 52 86 (by decide) (by decide) (by decide)
    (by decide) (by decide) (by decide) (by decide)

theorem shl32_testBit_sub (a m s j : Nat) (h : (shl32 (a &&& m) s).testBit j = true) :
    (m <<< s).testBit j = true := by
  unfold shl32 at h
  rw [Nat.testBit_mod_two_pow, Bool.and_eq_true] at h
  exact testBit_shl_and a m s j h.2

theorem pack_pixel_testBit (fb : trfb_framebuffer) (c j : Nat)
    (h : (pack_pixel fb c).testBit j = true) : (channel_bits fb).testBit j = true := by
  unfold pack_pixel at h
  unfold channel_bits
  rw [Nat.testBit_or, Nat.testBit_or, Bool.or_eq_true, Bool.or_eq_true] at h ⊢
  rcases h with (h | h) | h
  · exact Or.inl (Or.inl (shl32_testBit_sub _ _ _ _ h))
  · exact Or.inl (Or.inr (shl32_testBit_sub _ _ _ _ h))
  · exact Or.inr (shl32_testBit_sub _ _ _ _ h)

/-- C4: on a framebuffer with a supported `bpp`, after setting an in-range
pixel every set bit of the stored word lies inside the cell and inside
`(rmask << rshift) | (gmask << gshift) | (bmask << bshift)`, whatever the cell
held before; with the canonical RGB888 masks and shifts the stored word is
below `2^24`, so its top 8 bits are 0. -/
theorem set_pixel_clears_uncovered (fb : trfb_framebuffer) (x y c : Nat)
    (hb : supported_bpp fb.bpp) (hx : x < fb.width) (hy : y < fb.height)
    (hlen : fb.pixels.length = fb.width * fb.height) :
    (∀ j, (stored_pixel (trfb_framebuffer_set_pixel fb x y c) x y).testBit j = true →
      j < fb.bpp * 8 ∧ (channel_bits fb).testBit j = true) ∧
    stored_pixel (trfb_framebuffer_set_pixel fb x y c) x y &&& channel_bits fb =
      stored_pixel (trfb_framebuffer_set_pixel fb x y c) x y ∧
    (rgb888_layout fb → stored_pixel (trfb_framebuffer_set_pixel fb x y c) x y < 2 ^ 24) := by
  have hi : pixel_index fb x y < fb.pixels.length := by
    rw [hlen]; exact pixel_index_lt fb x y hx hy
  have h1 : ∀ j, (stored_pixel (trfb_framebuffer_set_pixel fb x y c) x y).testBit j = true →
      j < fb.bpp * 8 ∧ (channel_bits fb).testBit j = true := by
    intro j hj
    rw [stored_pixel_set fb x y c hb hi, Nat.testBit_mod_two_pow, Bool.and_eq_true] at hj
    exact ⟨of_decide_eq_true hj.1, pack_pixel_testBit fb c j hj.2⟩
  have h2 : stored_pixel (trfb_framebuffer_set_pixel fb x y c) x y &&& channel_bits fb =
      stored_pixel (trfb_framebuffer_set_pixel fb x y c) x y := by
    apply Nat.eq_of_testBit_eq
    intro j
    rw [Nat.testBit_and]
    cases hs : (stored_pixel (trfb_framebuffer_set_pixel fb x y c) x y).testBit j
    · rfl
    · rw [(h1 j hs).2]; rfl
  refine ⟨h1, h2, ?_⟩
  rintro ⟨-, hrm, hgm, hbm, hrs, hgs, hbs⟩
  rw [← h2]
  apply Nat.and_lt_two_pow
  unfold channel_bits
  rw [hrm, hgm, hbm, hrs, hgs, hbs]
  decide

/-- C4 at a concrete input: the one-pixel RGB888 framebuffer whose cell held
`0xFFFFFFFF`, set to colour `0xFF123456`. -/
theorem set_pixel_clears_uncovered_witness :
    stored_pixel (trfb_framebuffer_set_pixel (fb32_example 0xFFFFFFFF) 0 0 0xFF123456) 0 0 &&&
        channel_bits (fb32_example 0xFFFFFFFF) =
      stored_pixel (trfb_framebuffer_set_pixel (fb32_example 0xFFFFFFFF) 0 0 0xFF123456) 0 0 ∧
    stored_pixel (trfb_framebuffer_set_pixel (fb32_example 0xFFFFFFFF) 0 0 0xFF123456) 0 0 <
      2 ^ 24 :=
  ⟨(set_pixel_clears_uncovered (fb32_example 0xFFFFFFFF) 0 0 0xFF123456 (by decide) (by decide)
      (by decide) (by decide)).2.1,
   (set_pixel_clears_uncovered (fb32_example 0xFFFFFFFF) 0 0 0xFF123456 (by decide) (by decide)
      (by decide) (by decide)).2.2 (by decide)⟩

/-- A normalized channel scaled to the canonical range never exceeds 255. -/
theorem scale_channel_le (raw shift mask norm : Nat) (h : channel_normalized mask norm) :
    scale_channel raw shift mask norm ≤ 255 := by
  obtain ⟨hn, hm⟩ := h
  unfold scale_channel
  have h1 : (raw >>> shift) &&& mask ≤ mask := Nat.and_le_right
  rw [Nat.shiftLeft_eq]
  generalize (raw >>> shift) &&& mask = a at h1
  subst hm
  interval_cases norm <;> simp at h1 ⊢ <;> omega

theorem shl32_scale (raw shift mask norm : Nat) (h : channel_normalized mask norm) :
    shl32 ((raw >>> shift) &&& mask) norm = scale_channel raw shift mask norm := by
  have := scale_channel_le raw shift mask norm h
  unfold shl32
  unfold scale_channel at this ⊢
  apply Nat.mod_eq_of_lt
  omega

theorem unpack_pixel_normalized (fb : trfb_framebuffer) (raw : Nat) (hn : fb_normalized fb) :
    unpack_pixel fb raw =
      TRFB_RGB (scale_channel raw fb.rshift fb.rmask fb.rnorm)
        (scale_channel raw fb.gshift fb.gmask fb.gnorm)
        (scale_channel raw fb.bshift fb.bmask fb.bnorm) := by
  obtain ⟨hr, hg, hb⟩ := hn
  unfold unpack_pixel
  rw [shl32_scale _ _ _ _ hr, shl32_scale _ _ _ _ hg, shl32_scale _ _ _ _ hb]

/-- C5: on a framebuffer with a supported `bpp` in which every channel mask is
`2^k - 1` with `k ≤ 8` and the norm is `8 - k`, for every raw pixel word stored
at `(x, y)` the getter returns `TRFB_RGB(r, g, b)` with each channel equal to
`((raw >> shift) & mask) << norm`; each channel is at most 255, the colour is
below `2^24`, and its three 8-bit fields are exactly `r`, `g` and `b`. -/
theorem get_pixel_canonical_range (fb : trfb_framebuffer) (x y raw : Nat)
    (hb : supported_bpp fb.bpp) (hn : fb_normalized fb)
    (hcell : fb.pixels[pixel_index fb x y]? = some raw) (hraw : raw < 2 ^ (fb.bpp * 8)) :
    trfb_framebuffer_get_pixel fb x y =
      TRFB_RGB (scale_channel raw fb.rshift fb.rmask fb.rnorm)
        (scale_channel raw fb.gshift fb.gmask fb.gnorm)
        (scale_channel raw fb.bshift fb.bmask fb.bnorm) ∧
    scale_channel raw fb.rshift fb.rmask fb.rnorm ≤ 255 ∧
    scale_channel raw fb.gshift fb.gmask fb.gnorm ≤ 255 ∧
    scale_channel raw fb.bshift fb.bmask fb.bnorm ≤ 255 ∧
    trfb_framebuffer_get_pixel fb x y < 2 ^ 24 ∧
    TRFB_COLOR_R (trfb_framebuffer_get_pixel fb x y) =
      scale_channel raw fb.rshift fb.rmask fb.rnorm ∧
    TRFB_COLOR_G (trfb_framebuffer_get_pixel fb x y) =
      scale_channel raw fb.gshift fb.gmask fb.gnorm ∧
    TRFB_COLOR_B (trfb_framebuffer_get_pixel fb x y) =
      scale_channel raw fb.bshift fb.bmask fb.bnorm := by
  have hr := scale_channel_le raw fb.rshift fb.rmask fb.rnorm hn.1
  have hg := scale_channel_le raw fb.gshift fb.gmask fb.gnorm hn.2.1
  have hbl := scale_channel_le raw fb.bshift fb.bmask fb.bnorm hn.2.2
  have hload : load_pixel (fb.bpp * 8) fb (pixel_index fb x y) = raw := by
    unfold load_pixel
    rw [List.getD_eq_getElem?_getD, hcell]
    exact Nat.mod_eq_of_lt hraw
  have e : trfb_framebuffer_get_pixel fb x y =
      TRFB_RGB (scale_channel raw fb.rshift fb.rmask fb.rnorm)
        (scale_channel raw fb.gshift fb.gmask fb.gnorm)
        (scale_channel raw fb.bshift fb.bmask fb.bnorm) := by
    rw [get_pixel_supported fb x y hb, hload, unpack_pixel_normalized fb raw hn]
  obtain ⟨c1, c2, c3⟩ := TRFB_COLOR_of_RGB _ _ _ (Nat.lt_succ_of_le hr) (Nat.lt_succ_of_le hg)
    (Nat.lt_succ_of_le hbl)
  refine ⟨e, hr, hg, hbl, ?_, ?_, ?_, ?_⟩
  · rw [e]
    exact TRFB_RGB_lt _ _ _ (Nat.lt_succ_of_le hr) (Nat.lt_succ_of_le hg) (Nat.lt_succ_of_le hbl)
  · rw [e]; exact c1
  · rw [e]; exact c2
  · rw [e]; exact c3

/-- C5 at a concrete input: the one-pixel RGB565 framebuffer holding
`0xFFFF`. -/
theorem get_pixel_canonical_range_witness :
    trfb_framebuffer_get_pixel (fb16_example 0xFFFF) 0 0 =
      TRFB_RGB (scale_channel 0xFFFF 11 0x1f 3) (scale_channel 0xFFFF 5 0x3f 2)
        (scale_channel 0xFFFF 0 0x1f 3) ∧
    trfb_framebuffer_get_pixel (fb16_example 0xFFFF) 0 0 < 2 ^ 24 :=
  ⟨(get_pixel_canonical_range (fb16_example 0xFFFF) 0 0 0xFFFF (by decide) (by decide)
      (by decide) (by decide)).1,
   (get_pixel_canonical_range (fb16_example 0xFFFF) 0 0 0xFFFF (by decide) (by decide)
      (by decide) (by decide)).2.2.2.2.1⟩

/-- C6: the `TRFB_FB8_*`, `TRFB_FB16_*` and `TRFB_FB32_*` constants are the rows
of the spec's table (BGR233, RGB565, RGB888), and each row satisfies the
pixel-format invariant for its `bpp`: every shifted mask is below
`2^(bpp*8)` and the three shifted masks are pairwise disjoint. -/
theorem canonical_formats_invariant :
    (TRFB_FB8_RMASK = 0x07 ∧ TRFB_FB8_GMASK = 0x07 ∧ TRFB_FB8_BMASK = 0x03 ∧
      TRFB_FB8_RSHIFT = 0 ∧ TRFB_FB8_GSHIFT = 3 ∧ TRFB_FB8_BSHIFT = 6) ∧
    (TRFB_FB16_RMASK = 0x1F ∧ TRFB_FB16_GMASK = 0x3F ∧ TRFB_FB16_BMASK = 0x1F ∧
      TRFB_FB16_RSHIFT = 11 ∧ TRFB_FB16_GSHIFT = 5 ∧ TRFB_FB16_BSHIFT = 0) ∧
    (TRFB_FB32_RMASK = 0xFF ∧ TRFB_FB32_GMASK = 0xFF ∧ TRFB_FB32_BMASK = 0xFF ∧
      TRFB_FB32_RSHIFT = 16 ∧ TRFB_FB32_GSHIFT = 8 ∧ TRFB_FB32_BSHIFT = 0) ∧
    format_invariant 1 TRFB_FB8_RMASK TRFB_FB8_GMASK TRFB_FB8_BMASK
      TRFB_FB8_RSHIFT TRFB_FB8_GSHIFT TRFB_FB8_BSHIFT ∧
    format_invariant 2 TRFB_FB16_RMASK TRFB_FB16_GMASK TRFB_FB16_BMASK
      TRFB_FB16_RSHIFT TRFB_FB16_GSHIFT TRFB_FB16_BSHIFT ∧
    format_invariant 4 TRFB_FB32_RMASK TRFB_FB32_GMASK TRFB_FB32_BMASK
      TRFB_FB32_RSHIFT TRFB_FB32_GSHIFT TRFB_FB32_BSHIFT := by
  decide

theorem set_pixel_unsupported (fb : trfb_framebuffer) (x y c : Nat)
    (h : ¬ supported_bpp fb.bpp) : trfb_framebuffer_set_pixel fb x y c = fb := by
  unfold supported_bpp at h
  unfold trfb_framebuffer_set_pixel
  have h1 : fb.bpp ≠ 1 := fun e => h (Or.inl e)
  have h2 : fb.bpp ≠ 2 := fun e => h (Or.inr (Or.inl e))
  have h4 : fb.bpp ≠ 4 := fun e => h (Or.inr (Or.inr e))
  simp [h1, h2, h4]

theorem get_pixel_unsupported (fb : trfb_framebuffer) (x y : Nat)
    (h : ¬ supported_bpp fb.bpp) : trfb_framebuffer_get_pixel fb x y = 0 := by
  unfold supported_bpp at h
  unfold trfb_framebuffer_get_pixel
  have h1 : fb.bpp ≠ 1 := fun e => h (Or.inl e)
  have h2 : fb.bpp ≠ 2 := fun e => h (Or.inr (Or.inl e))
  have h4 : fb.bpp ≠ 4 := fun e => h (Or.inr (Or.inr e))
  simp [h1, h2, h4]

/-- The fields a pixel store leaves alone, and the cells it leaves alone. -/
theorem set_pixel_fields (fb : trfb_framebuffer) (x y c : Nat) :
    (trfb_framebuffer_set_pixel fb x y c).width = fb.width ∧
    (trfb_framebuffer_set_pixel fb x y c).height = fb.height ∧
    (trfb_framebuffer_set_pixel fb x y c).bpp = fb.bpp ∧
    (trfb_framebuffer_set_pixel fb x y c).rmask = fb.rmask ∧
    (trfb_framebuffer_set_pixel fb x y c).gmask = fb.gmask ∧
    (trfb_framebuffer_set_pixel fb x y c).bmask = fb.bmask ∧
    (trfb_framebuffer_set_pixel fb x y c).rshift = fb.rshift ∧
    (trfb_framebuffer_set_pixel fb x y c).gshift = fb.gshift ∧
    (trfb_framebuffer_set_pixel fb x y c).bshift = fb.bshift ∧
    (trfb_framebuffer_set_pixel fb x y c).rnorm = fb.rnorm ∧
    (trfb_framebuffer_set_pixel fb x y c).gnorm = fb.gnorm ∧
    (trfb_framebuffer_set_pixel fb x y c).bnorm = fb.bnorm ∧
    (trfb_framebuffer_set_pixel fb x y c).free_pixels = fb.free_pixels ∧
    (trfb_framebuffer_set_pixel fb x y c).pixels.length = fb.pixels.length ∧
    (∀ i, i ≠ pixel_index fb x y →
      (trfb_framebuffer_set_pixel fb x y c).pixels[i]? = fb.pixels[i]?) := by
  by_cases hb : supported_bpp fb.bpp
  · rw [set_pixel_supported fb x y c hb]
    unfold store_pixel
    refine ⟨rfl, rfl, rfl, rfl, rfl, rfl, rfl, rfl, rfl, rfl, rfl, rfl, rfl, by simp, ?_⟩
    intro i hi
    simp [List.getElem?_set_ne (Ne.symm hi)]
  · rw [set_pixel_unsupported fb x y c hb]
    simp

/-- A get of a pixel other than the one that was set sees the old value. -/
theorem get_set_other (fb : trfb_framebuffer) (x y x2 y2 c : Nat)
    (hne : pixel_index fb x y ≠ pixel_index fb x2 y2) :
    trfb_framebuffer_get_pixel (trfb_framebuffer_set_pixel fb x y c) x2 y2 =
      trfb_framebuffer_get_pixel fb x2 y2 := by
  by_cases hb : supported_bpp fb.bpp
  · rw [set_pixel_supported fb x y c hb, get_pixel_supported _ x2 y2 (by exact hb),
      get_pixel_supported fb x2 y2 hb, pixel_index_store, unpack_pixel_store]
    show unpack_pixel fb (load_pixel (fb.bpp * 8) (store_pixel (fb.bpp * 8) fb _ _) _) = _
    rw [load_store_other _ _ _ _ _ hne]
  · rw [set_pixel_unsupported fb x y c hb]

/-- C9: on a framebuffer of any `bpp` (in particular 1, 2 and 4) with
`width * height` below `2^32`, setting the in-range pixel `(x, y)` changes only
the cell at index `y * width + x`: every other cell, the colour read at any
other in-range pixel `(x2, y2)`, and the width, height, bpp, masks, shifts and
norms are unchanged. -/
theorem set_pixel_frame (fb : trfb_framebuffer) (x y x2 y2 c : Nat)
    (hsz : fb.width * fb.height < 2 ^ 32)
    (hx : x < fb.width) (hy : y < fb.height) (hx2 : x2 < fb.width) (hy2 : y2 < fb.height)
    (hne : (x, y) ≠ (x2, y2)) :
    pixel_index fb x y = y * fb.width + x ∧
    (∀ i, i ≠ y * fb.width + x →
      (trfb_framebuffer_set_pixel fb x y c).pixels[i]? = fb.pixels[i]?) ∧
    (trfb_framebuffer_set_pixel fb x y c).pixels.length = fb.pixels.length ∧
    trfb_framebuffer_get_pixel (trfb_framebuffer_set_pixel fb x y c) x2 y2 =
      trfb_framebuffer_get_pixel fb x2 y2 ∧
    (trfb_framebuffer_set_pixel fb x y c).width = fb.width ∧
    (trfb_framebuffer_set_pixel fb x y c).height = fb.height ∧
    (trfb_framebuffer_set_pixel fb x y c).bpp = fb.bpp ∧
    (trfb_framebuffer_set_pixel fb x y c).rmask = fb.rmask ∧
    (trfb_framebuffer_set_pixel fb x y c).gmask = fb.gmask ∧
    (trfb_framebuffer_set_pixel fb x y c).bmask = fb.bmask ∧
    (trfb_framebuffer_set_pixel fb x y c).rshift = fb.rshift ∧
    (trfb_framebuffer_set_pixel fb x y c).gshift = fb.gshift ∧
    (trfb_framebuffer_set_pixel fb x y c).bshift = fb.bshift ∧
    (trfb_framebuffer_set_pixel fb x y c).rnorm = fb.rnorm ∧
    (trfb_framebuffer_set_pixel fb x y c).gnorm = fb.gnorm ∧
    (trfb_framebuffer_set_pixel fb x y c).bnorm = fb.bnorm := by
  have hidx := pixel_index_eq fb x y hx hy hsz
  have hdiff : pixel_index fb x y ≠ pixel_index fb x2 y2 := by
    intro e
    obtain ⟨e1, e2⟩ := pixel_index_inj fb x y x2 y2 hx hy hx2 hy2 hsz e
    exact hne (by rw [e1, e2])
  obtain ⟨f1, f2, f3, f4, f5, f6, f7, f8, f9, f10, f11, f12, -, f14, f15⟩ :=
    set_pixel_fields fb x y c
  refine ⟨hidx, ?_, f14, get_set_other fb x y x2 y2 c hdiff, f1, f2, f3, f4, f5, f6, f7, f8, f9,
    f10, f11, f12⟩
  intro i hi
  exact f15 i (by rw [hidx]; exact hi)

/-- C9 at a concrete input: the 2x2 BGR233 framebuffer, setting `(1, 0)` and
reading `(0, 1)`. -/
theorem set_pixel_frame_witness :
    trfb_framebuffer_get_pixel (trfb_framebuffer_set_pixel fb8_example 1 0 0xABCDEF) 0 1 =
      trfb_framebuffer_get_pixel fb8_example 0 1 :=
  (set_pixel_frame fb8_example 1 0 0 1 0xABCDEF (by decide) (by decide) (by decide) (by decide)
    (by decide) (by decide)).2.2.2.1

/-- C10: for a `bpp` other than 1, 2 and 4 the getter returns colour 0 whatever
the pixel buffer holds and the setter returns the framebuffer unchanged; for
`bpp` 1, 2 and 4 the dispatchers are the 8-, 16- and 32-bit accessors. -/
theorem dispatch_by_bpp (fb : trfb_framebuffer) (x y c : Nat) :
    (¬ supported_bpp fb.bpp →
      trfb_framebuffer_get_pixel fb x y = 0 ∧
      (∀ px : List Nat, trfb_framebuffer_get_pixel { fb with pixels := px } x y = 0) ∧
      trfb_framebuffer_set_pixel fb x y c = fb) ∧
    (fb.bpp = 1 →
      trfb_framebuffer_get_pixel fb x y = trfb_fb8_get_pixel fb x y ∧
      trfb_framebuffer_set_pixel fb x y c = trfb_fb8_set_pixel fb x y c) ∧
    (fb.bpp = 2 →
      trfb_framebuffer_get_pixel fb x y = trfb_fb16_get_pixel fb x y ∧
      trfb_framebuffer_set_pixel fb x y c = trfb_fb16_set_pixel fb x y c) ∧
    (fb.bpp = 4 →
      trfb_framebuffer_get_pixel fb x y = trfb_fb32_get_pixel fb x y ∧
      trfb_framebuffer_set_pixel fb x y c = trfb_fb32_set_pixel fb x y c) := by
  refine ⟨?_, ?_, ?_, ?_⟩
  · intro h
    refine ⟨get_pixel_unsupported fb x y h, ?_, set_pixel_unsupported fb x y c h⟩
    intro px
    exact get_pixel_unsupported _ x y (by exact h)
  · intro h
    unfold trfb_framebuffer_get_pixel trfb_framebuffer_set_pixel
    simp [h]
  · intro h
    unfold trfb_framebuffer_get_pixel trfb_framebuffer_set_pixel
    simp [h]
  · intro h
    unfold trfb_framebuffer_get_pixel trfb_framebuffer_set_pixel
    simp [h]

/-- C10 at concrete inputs: a framebuffer with `bpp = 3`, and the BGR233 and
RGB888 examples. -/
theorem dispatch_by_bpp_witness :
    (trfb_framebuffer_get_pixel fb24_example 0 0 = 0 ∧
      (∀ px : List Nat, trfb_framebuffer_get_pixel { fb24_example with pixels := px } 0 0 = 0) ∧
      trfb_framebuffer_set_pixel fb24_example 0 0 0xFFFFFF = fb24_example) ∧
    (trfb_framebuffer_get_pixel fb8_example 1 1 = trfb_fb8_get_pixel fb8_example 1 1 ∧
      trfb_framebuffer_set_pixel fb8_example 1 1 0xFFFFFF =
        trfb_fb8_set_pixel fb8_example 1 1 0xFFFFFF) ∧
    (trfb_framebuffer_get_pixel (fb32_example 7) 0 0 = trfb_fb32_get_pixel (fb32_example 7) 0 0 ∧
      trfb_framebuffer_set_pixel (fb32_example 7) 0 0 0xFFFFFF =
        trfb_fb32_set_pixel (fb32_example 7) 0 0 0xFFFFFF) :=
  ⟨(dispatch_by_bpp fb24_example 0 0 0xFFFFFF).1 (by decide),
   (dispatch_by_bpp fb8_example 1 1 0xFFFFFF).2.1 (by decide),
   (dispatch_by_bpp (fb32_example 7) 0 0 0xFFFFFF).2.2.2 (by decide)⟩

/-! ## Claims about the buffered I/O macros -/

theorem io_example_sized : io_sized io_example := by
  unfold io_sized io_example TRFB_BUFSIZ
  refine ⟨by simp only [List.length_append, List.length_replicate, List.length_cons,
      List.length_nil], by simp only [List.length_append, List.length_replicate,
      List.length_cons, List.length_nil], ?_, ?_⟩
  · intro b hb
    simp only [List.mem_append, List.mem_cons, List.mem_replicate, List.mem_singleton,
      List.not_mem_nil, or_false] at hb
    omega
  · intro b hb
    simp only [List.mem_append, List.mem_cons, List.mem_replicate, List.mem_singleton,
      List.not_mem_nil, or_false] at hb
    omega

theorem io_full_example_sized : io_sized io_full_example := io_example_sized

/-- The fast path of `trfb_io_getc`: the buffered byte and the handle with
`rpos` advanced, whatever the slow path is. -/
theorem getc_fast (fgetc : trfb_io_t → Nat → Int × trfb_io_t) (io : trfb_io_t) (t : Nat)
    (hs : io_sized io) (hlen : io.rlen ≤ TRFB_BUFSIZ) (h : io.rpos < io.rlen) :
    trfb_io_getc fgetc io t =
      (((io.rbuf.getD io.rpos 0 : Nat) : Int), { io with rpos := io.rpos + 1 }) := by
  obtain ⟨hr, -, hbytes, -⟩ := hs
  have hin : io.rpos < io.rbuf.length := by omega
  have hlt : io.rbuf.getD io.rpos 0 < 256 := by
    rw [List.getD_eq_getElem _ _ hin]
    exact hbytes _ (List.getElem_mem hin)
  unfold trfb_io_getc
  rw [if_pos h, Nat.mod_eq_of_lt hlt]

theorem getc_repeat_fast (fgetc : trfb_io_t → Nat → Int × trfb_io_t) (t : Nat) :
    ∀ (n : Nat) (io : trfb_io_t), io_sized io → io.rlen ≤ TRFB_BUFSIZ →
      io.rpos + n ≤ io.rlen →
      getc_repeat fgetc n io t =
        (((io.rbuf.drop io.rpos).take n).map (fun b : Nat => (b : Int)),
          { io with rpos := io.rpos + n }) := by
  intro n
  induction n with
  | zero => intro io _ _ _; rfl
  | succ n ih =>
    intro io hs hlen hn
    have hlt : io.rpos < io.rlen := by omega
    have hin : io.rpos < io.rbuf.length := by have := hs.1; omega
    have hs2 : io_sized { io with rpos := io.rpos + 1 } := hs
    have step := getc_fast fgetc io t hs hlen hlt
    have rest := ih { io with rpos := io.rpos + 1 } hs2 hlen
      (by show io.rpos + 1 + n ≤ io.rlen; omega)
    unfold getc_repeat
    simp only [step, rest]
    rw [List.drop_eq_getElem_cons hin, List.take_succ_cons, List.map_cons,
      List.getD_eq_getElem _ _ hin]
    have e : io.rpos + 1 + n = io.rpos + (n + 1) := by omega
    rw [e]

/-- C7: on a handle with `rpos < rlen <= 2048`, `trfb_io_getc` returns
`rbuf[rpos]` and advances `rpos` by exactly 1, whatever `trfb_io_fgetc` is and
without changing `rbuf`, `rlen`, `wbuf`, `wlen` or `error`; the macro is the
slow path `trfb_io_fgetc`, for every such function, exactly when
`rpos >= rlen`; and `rlen - rpos` (or fewer) consecutive calls return the
buffered bytes in order and leave `rpos <= rlen`. -/
theorem getc_buffered (io : trfb_io_t) (t : Nat) (hs : io_sized io)
    (hlen : io.rlen ≤ TRFB_BUFSIZ) :
    (io.rpos < io.rlen → ∀ fgetc : trfb_io_t → Nat → Int × trfb_io_t,
      trfb_io_getc fgetc io t =
        (((io.rbuf.getD io.rpos 0 : Nat) : Int), { io with rpos := io.rpos + 1 }) ∧
      (trfb_io_getc fgetc io t).2.rpos = io.rpos + 1 ∧
      (trfb_io_getc fgetc io t).2.rbuf = io.rbuf ∧
      (trfb_io_getc fgetc io t).2.rlen = io.rlen ∧
      (trfb_io_getc fgetc io t).2.wbuf = io.wbuf ∧
      (trfb_io_getc fgetc io t).2.wlen = io.wlen ∧
      (trfb_io_getc fgetc io t).2.error = io.error) ∧
    ((∀ fgetc : trfb_io_t → Nat → Int × trfb_io_t,
        trfb_io_getc fgetc io t = fgetc io t) ↔ io.rlen ≤ io.rpos) ∧
    (∀ (fgetc : trfb_io_t → Nat → Int × trfb_io_t) (n : Nat), io.rpos + n ≤ io.rlen →
      getc_repeat fgetc n io t =
        (((io.rbuf.drop io.rpos).take n).map (fun b : Nat => (b : Int)),
          { io with rpos := io.rpos + n }) ∧
      (getc_repeat fgetc n io t).2.rpos ≤ io.rlen) := by
  refine ⟨?_, ?_, ?_⟩
  · intro h fgetc
    have e := getc_fast fgetc io t hs hlen h
    rw [e]
    exact ⟨rfl, rfl, rfl, rfl, rfl, rfl, rfl⟩
  · constructor
    · intro hall
      by_contra hcon
      have hlt : io.rpos < io.rlen := by omega
      have e1 := hall (fun i _ => (0, i))
      have e2 := hall (fun i _ => (1, i))
      rw [getc_fast _ io t hs hlen hlt] at e1 e2
      have h1 := congrArg Prod.fst e1
      have h2 := congrArg Prod.fst e2
      simp only at h1 h2
      omega
    · intro hge fgetc
      unfold trfb_io_getc
      rw [if_neg (by omega)]
  · intro fgetc n hn
    have e := getc_repeat_fast fgetc t n io hs hlen hn
    rw [e]
    exact ⟨rfl, hn⟩

/-- C7 at a concrete input: a handle with `rpos = 1`, `rlen = 4` and buffered
bytes 20, 30, 40. -/
theorem getc_buffered_witness :
    trfb_io_getc fgetc_example io_example 5 = (20, { io_example with rpos := 2 }) ∧
    getc_repeat fgetc_example 3 io_example 5 = ([20, 30, 40], { io_example with rpos := 4 }) :=
  ⟨((getc_buffered io_example 5 io_example_sized (by decide)).1 (by decide) fgetc_example).1,
   ((getc_buffered io_example 5 io_example_sized (by decide)).2.2 fgetc_example 3
      (by decide)).1⟩

/-- C8: on a handle with `wlen <= 2048` and a byte `c`: when `wlen < 2048`,
`trfb_io_putc` stores `c` at `wbuf[wlen]`, increases `wlen` by exactly 1, leaves
every other cell of `wbuf` (in particular `wbuf[0..wlen)`), the buffer size and
the read-side fields unchanged, whatever `trfb_io_fputc` is, and keeps
`wlen <= TRFB_BUFSIZ`; when `wlen = 2048` the macro is the call
`trfb_io_fputc(c, io, timeout)` and stores nothing itself; one of the two cases
applies. -/
theorem putc_buffered (io : trfb_io_t) (c t : Nat) (hs : io_sized io) (hc : c < 256)
    (hlen : io.wlen ≤ TRFB_BUFSIZ) :
    (io.wlen < TRFB_BUFSIZ → ∀ fputc : Nat → trfb_io_t → Nat → Int × trfb_io_t,
      trfb_io_putc fputc c io t =
        ((c : Int), { io with wbuf := io.wbuf.set io.wlen c, wlen := io.wlen + 1 }) ∧
      (trfb_io_putc fputc c io t).2.wbuf[io.wlen]? = some c ∧
      (trfb_io_putc fputc c io t).2.wlen = io.wlen + 1 ∧
      (∀ i, i ≠ io.wlen → (trfb_io_putc fputc c io t).2.wbuf[i]? = io.wbuf[i]?) ∧
      (∀ i, i < io.wlen → (trfb_io_putc fputc c io t).2.wbuf[i]? = io.wbuf[i]?) ∧
      (trfb_io_putc fputc c io t).2.wbuf.length = TRFB_BUFSIZ ∧
      (trfb_io_putc fputc c io t).2.wlen ≤ TRFB_BUFSIZ ∧
      (trfb_io_putc fputc c io t).2.rbuf = io.rbuf ∧
      (trfb_io_putc fputc c io t).2.rlen = io.rlen ∧
      (trfb_io_putc fputc c io t).2.rpos = io.rpos ∧
      (trfb_io_putc fputc c io t).2.error = io.error) ∧
    (io.wlen = TRFB_BUFSIZ → ∀ fputc : Nat → trfb_io_t → Nat → Int × trfb_io_t,
      trfb_io_putc fputc c io t = fputc c io t) ∧
    (io.wlen < TRFB_BUFSIZ ∨ io.wlen = TRFB_BUFSIZ) := by
  obtain ⟨-, hw, -, -⟩ := hs
  refine ⟨?_, ?_, Nat.lt_or_eq_of_le hlen⟩
  · intro h fputc
    have e : trfb_io_putc fputc c io t =
        ((c : Int), { io with wbuf := io.wbuf.set io.wlen c, wlen := io.wlen + 1 }) := by
      unfold trfb_io_putc
      rw [if_pos h, Nat.mod_eq_of_lt hc]
    have hin : io.wlen < io.wbuf.length := by omega
    rw [e]
    refine ⟨rfl, ?_, rfl, ?_, ?_, ?_, ?_, rfl, rfl, rfl, rfl⟩
    · simp [hin]
    · intro i hi
      simp [List.getElem?_set_ne (Ne.symm hi)]
    · intro i hi
      have : io.wlen ≠ i := by omega
      simp [List.getElem?_set_ne this]
    · simp [hw]
    · show io.wlen + 1 ≤ TRFB_BUFSIZ
      omega
  · intro h fputc
    unfold trfb_io_putc
    rw [if_neg (by omega), Nat.mod_eq_of_lt hc]

/-- C8 at concrete inputs: a handle with two queued bytes, and a handle whose
write buffer is full. -/
theorem putc_buffered_witness :
    (trfb_io_putc fputc_example 9 io_example 5).2.wbuf[2]? = some 9 ∧
    (trfb_io_putc fputc_example 9 io_example 5).2.wlen = 3 ∧
    trfb_io_putc fputc_example 9 io_full_example 5 = fputc_example 9 io_full_example 5 :=
  ⟨((putc_buffered io_example 9 5 io_example_sized (by decide) (by decide)).1 (by decide)
      fputc_example).2.1,
   ((putc_buffered io_example 9 5 io_example_sized (by decide) (by decide)).1 (by decide)
      fputc_example).2.2.1,
   (putc_buffered io_full_example 9 5 io_full_example_sized (by decide) (by decide)).2.1
      (by decide) fputc_example⟩

/-! ## Conversion between formats -/

theorem same_frame_refl (a : trfb_framebuffer) : same_frame a a :=
  ⟨⟨rfl, rfl⟩, ⟨rfl, rfl, rfl, rfl, rfl, rfl, rfl, rfl, rfl, rfl⟩, rfl⟩

theorem same_frame_trans (a b c : trfb_framebuffer) (h1 : same_frame a b)
    (h2 : same_frame b c) : same_frame a c := by
  obtain ⟨⟨a1, a2⟩, ⟨a3, a4, a5, a6, a7, a8, a9, a10, a11, a12⟩, a13⟩ := h1
  obtain ⟨⟨b1, b2⟩, ⟨b3, b4, b5, b6, b7, b8, b9, b10, b11, b12⟩, b13⟩ := h2
  exact ⟨⟨a1.trans b1, a2.trans b2⟩, ⟨a3.trans b3, a4.trans b4, a5.trans b5, a6.trans b6,
    a7.trans b7, a8.trans b8, a9.trans b9, a10.trans b10, a11.trans b11, a12.trans b12⟩,
    a13.trans b13⟩

theorem set_same_frame (d : trfb_framebuffer) (x y c : Nat) :
    same_frame (trfb_framebuffer_set_pixel d x y c) d := by
  obtain ⟨f1, f2, f3, f4, f5, f6, f7, f8, f9, f10, f11, f12, -, f14, -⟩ :=
    set_pixel_fields d x y c
  exact ⟨⟨f1, f2⟩, ⟨f3, f4, f5, f6, f7, f8, f9, f10, f11, f12⟩, f14⟩

theorem readback_congr (a b : trfb_framebuffer) (c : Nat) (h : same_format a b) :
    readback a c = readback b c := by
  obtain ⟨a3, a4, a5, a6, a7, a8, a9, a10, a11, a12⟩ := h
  unfold readback unpack_pixel pack_pixel
  rw [a3, a4, a5, a6, a7, a8, a9, a10, a11, a12]

theorem same_frame_props (a b : trfb_framebuffer) (h : same_frame a b)
    (hb : supported_bpp b.bpp) (hs : fb_sized b) :
    supported_bpp a.bpp ∧ fb_sized a ∧ a.width = b.width ∧ a.height = b.height := by
  obtain ⟨⟨a1, a2⟩, ⟨a3, -⟩, a13⟩ := h
  unfold fb_sized at hs ⊢
  rw [a1, a2, a3, a13]
  exact ⟨hb, hs, rfl, rfl⟩

/-- A get after a set, for two in-range pixels of a framebuffer whose index
cannot wrap. -/
theorem get_set_cases (d : trfb_framebuffer) (x y x2 y2 c : Nat) (hb : supported_bpp d.bpp)
    (hs : fb_sized d) (hx : x < d.width) (hy : y < d.height) (hx2 : x2 < d.width)
    (hy2 : y2 < d.height) :
    trfb_framebuffer_get_pixel (trfb_framebuffer_set_pixel d x y c) x2 y2 =
      if x2 = x ∧ y2 = y then readback d c else trfb_framebuffer_get_pixel d x2 y2 := by
  obtain ⟨hlen, hsz⟩ := hs
  by_cases h : x2 = x ∧ y2 = y
  · obtain ⟨e1, e2⟩ := h
    subst e1 e2
    rw [if_pos ⟨rfl, rfl⟩]
    exact get_set_same d x2 y2 c hb (by rw [hlen]; exact pixel_index_lt d x2 y2 hx hy)
  · rw [if_neg h]
    apply get_set_other
    intro e
    obtain ⟨e1, e2⟩ := pixel_index_inj d x y x2 y2 hx hy hx2 hy2 hsz e
    exact h ⟨e1.symm, e2.symm⟩

theorem row_fold_get (f : Nat → Nat) (y : Nat) :
    ∀ (xs : List Nat) (d : trfb_framebuffer), supported_bpp d.bpp → fb_sized d →
      y < d.height → (∀ x ∈ xs, x < d.width) →
      same_frame (xs.foldl (fun e x => trfb_framebuffer_set_pixel e x y (f x)) d) d ∧
      ∀ x2 y2, x2 < d.width → y2 < d.height →
        trfb_framebuffer_get_pixel
            (xs.foldl (fun e x => trfb_framebuffer_set_pixel e x y (f x)) d) x2 y2 =
          if y2 = y ∧ x2 ∈ xs then readback d (f x2) else trfb_framebuffer_get_pixel d x2 y2 := by
  intro xs
  induction xs with
  | nil =>
    intro d _ _ _ _
    refine ⟨same_frame_refl d, ?_⟩
    intro x2 y2 _ _
    simp
  | cons x xs ih =>
    intro d hb hs hy hxs
    have hx : x < d.width := hxs x (List.mem_cons_self x xs)
    have hfr := set_same_frame d x y (f x)
    obtain ⟨hb1, hs1, hw1, hh1⟩ := same_frame_props _ d hfr hb hs
    obtain ⟨hfr2, hget⟩ := ih (trfb_framebuffer_set_pixel d x y (f x)) hb1 hs1
      (by rw [hh1]; exact hy)
      (by intro z hz; rw [hw1]; exact hxs z (List.mem_cons_of_mem x hz))
    rw [List.foldl_cons]
    refine ⟨same_frame_trans _ _ _ hfr2 hfr, ?_⟩
    intro x2 y2 hx2 hy2
    rw [hget x2 y2 (by rw [hw1]; exact hx2) (by rw [hh1]; exact hy2),
      readback_congr _ d _ hfr.2.1, get_set_cases d x y x2 y2 (f x) hb hs hx hy hx2 hy2]
    by_cases hyy : y2 = y
    · by_cases hmem : x2 ∈ xs
      · simp [hyy, hmem]
      · by_cases hxx : x2 = x
        · simp [hyy, hxx]
        · simp [hyy, hmem, hxx]
    · simp [hyy]

theorem convert_row_get (src : trfb_framebuffer) (y : Nat) (d : trfb_framebuffer)
    (hb : supported_bpp d.bpp) (hs : fb_sized d) (hw : d.width = src.width)
    (hy : y < d.height) :
    same_frame (convert_row src y d) d ∧
    ∀ x2 y2, x2 < d.width → y2 < d.height →
      trfb_framebuffer_get_pixel (convert_row src y d) x2 y2 =
        if y2 = y then readback d (trfb_framebuffer_get_pixel src x2 y)
        else trfb_framebuffer_get_pixel d x2 y2 := by
  obtain ⟨h1, h2⟩ := row_fold_get (fun x => trfb_framebuffer_get_pixel src x y) y
    (List.range src.width) d hb hs hy (by intro x hx; rw [hw]; exact List.mem_range.mp hx)
  refine ⟨h1, ?_⟩
  intro x2 y2 hx2 hy2
  have hmem : x2 ∈ List.range src.width := List.mem_range.mpr (by rw [← hw]; exact hx2)
  have := h2 x2 y2 hx2 hy2
  simp only [hmem, and_true] at this
  exact this

theorem rows_fold_get (src : trfb_framebuffer) :
    ∀ (ys : List Nat) (d : trfb_framebuffer), supported_bpp d.bpp → fb_sized d →
      d.width = src.width → (∀ y ∈ ys, y < d.height) →
      same_frame (ys.foldl (fun e y => convert_row src y e) d) d ∧
      ∀ x2 y2, x2 < d.width → y2 < d.height →
        trfb_framebuffer_get_pixel (ys.foldl (fun e y => convert_row src y e) d) x2 y2 =
          if y2 ∈ ys then readback d (trfb_framebuffer_get_pixel src x2 y2)
          else trfb_framebuffer_get_pixel d x2 y2 := by
  intro ys
  induction ys with
  | nil =>
    intro d _ _ _ _
    refine ⟨same_frame_refl d, ?_⟩
    intro x2 y2 _ _
    simp
  | cons y ys ih =>
    intro d hb hs hw hys
    have hy : y < d.height := hys y (List.mem_cons_self y ys)
    obtain ⟨hfr, hrow⟩ := convert_row_get src y d hb hs hw hy
    obtain ⟨hb1, hs1, hw1, hh1⟩ := same_frame_props _ d hfr hb hs
    obtain ⟨hfr2, hget⟩ := ih (convert_row src y d) hb1 hs1 (by rw [hw1]; exact hw)
      (by intro z hz; rw [hh1]; exact hys z (List.mem_cons_of_mem y hz))
    rw [List.foldl_cons]
    refine ⟨same_frame_trans _ _ _ hfr2 hfr, ?_⟩
    intro x2 y2 hx2 hy2
    rw [hget x2 y2 (by rw [hw1]; exact hx2) (by rw [hh1]; exact hy2),
      readback_congr _ d _ hfr.2.1, hrow x2 y2 hx2 hy2]
    by_cases hmem : y2 ∈ ys
    · simp [hmem]
    · by_cases hyy : y2 = y
      · simp [hyy]
      · simp [hmem, hyy]

/-- After a conversion every in-range pixel of the destination reads back the
source pixel's colour in the destination's precision, and the destination
keeps its size and format. -/
theorem convert_get (dst src : trfb_framebuffer) (x y : Nat) (hb : supported_bpp dst.bpp)
    (hs : fb_sized dst) (hsz : same_size dst src) (hx : x < dst.width) (hy : y < dst.height) :
    same_frame (trfb_framebuffer_convert dst src) dst ∧
    trfb_framebuffer_get_pixel (trfb_framebuffer_convert dst src) x y =
      readback dst (trfb_framebuffer_get_pixel src x y) := by
  obtain ⟨hw, hh⟩ := hsz
  obtain ⟨h1, h2⟩ := rows_fold_get src (List.range src.height) dst hb hs hw
    (by intro z hz; rw [hh]; exact List.mem_range.mp hz)
  refine ⟨h1, ?_⟩
  have hmem : y ∈ List.range src.height := List.mem_range.mpr (by rw [← hh]; exact hy)
  have := h2 x y hx hy
  rw [if_pos hmem] at this
  exact this

theorem round_channel_normalized (v n : Nat) :
    round_channel v n (2 ^ (8 - n) - 1) = v / 2 ^ n % 2 ^ (8 - n) * 2 ^ n := by
  unfold round_channel
  rw [Nat.and_pow_two_sub_one_eq_mod, Nat.shiftRight_eq_div_pow, Nat.shiftLeft_eq]

/-- One channel through the round trip: a value `a << ns` of a normalized
source channel, rounded to the destination channel and back to the source
channel. -/
theorem roundtrip_channel (a ns nd ms md : Nat) (hs : channel_normalized ms ns)
    (hd : channel_normalized md nd) (ha : a ≤ ms) :
    round_channel (round_channel (a <<< ns) nd md) ns ms ≤ a <<< ns ∧
    a <<< ns - round_channel (round_channel (a <<< ns) nd md) ns ms < 2 ^ max ns nd ∧
    (nd ≤ ns → round_channel (round_channel (a <<< ns) nd md) ns ms = a <<< ns) := by
  obtain ⟨hns, hms⟩ := hs
  obtain ⟨hnd, hmd⟩ := hd
  subst hms hmd
  rw [round_channel_normalized, round_channel_normalized, Nat.shiftLeft_eq]
  interval_cases ns <;> interval_cases nd <;>
    simp only [Nat.reducePow, Nat.reduceSub, Nat.reduceLeDiff, Nat.max_def, ite_true, ite_false,
      if_true, if_false, forall_true_left, false_implies, and_true] at ha ⊢ <;> omega

theorem readback_channels (fb : trfb_framebuffer) (c : Nat) (hb : supported_bpp fb.bpp)
    (hinv : fb_invariant fb) :
    TRFB_COLOR_R (readback fb c) = round_channel (TRFB_COLOR_R c) fb.rnorm fb.rmask ∧
    TRFB_COLOR_G (readback fb c) = round_channel (TRFB_COLOR_G c) fb.gnorm fb.gmask ∧
    TRFB_COLOR_B (readback fb c) = round_channel (TRFB_COLOR_B c) fb.bnorm fb.bmask := by
  unfold readback
  rw [Nat.mod_eq_of_lt (pack_pixel_lt fb c hb hinv), unpack_pack fb c hb hinv]
  have h1 := Nat.lt_of_le_of_lt (round_channel_le (TRFB_COLOR_R c) fb.rnorm fb.rmask)
    (TRFB_COLOR_R_lt c)
  have h2 := Nat.lt_of_le_of_lt (round_channel_le (TRFB_COLOR_G c) fb.gnorm fb.gmask)
    (TRFB_COLOR_G_lt c)
  have h3 := Nat.lt_of_le_of_lt (round_channel_le (TRFB_COLOR_B c) fb.bnorm fb.bmask)
    (TRFB_COLOR_B_lt c)
  exact TRFB_COLOR_of_RGB _ _ _ h1 h2 h3

/-- The channels of the colour the getter returns on a normalized format, as
shifted raw channels. -/
theorem get_pixel_channels (fb : trfb_framebuffer) (x y : Nat) (hb : supported_bpp fb.bpp)
    (hn : fb_normalized fb) :
    ∃ raw,
      TRFB_COLOR_R (trfb_framebuffer_get_pixel fb x y) = ((raw >>> fb.rshift) &&& fb.rmask) <<< fb.rnorm ∧
      TRFB_COLOR_G (trfb_framebuffer_get_pixel fb x y) = ((raw >>> fb.gshift) &&& fb.gmask) <<< fb.gnorm ∧
      TRFB_COLOR_B (trfb_framebuffer_get_pixel fb x y) = ((raw >>> fb.bshift) &&& fb.bmask) <<< fb.bnorm := by
  refine ⟨load_pixel (fb.bpp * 8) fb (pixel_index fb x y), ?_⟩
  rw [get_pixel_supported fb x y hb, unpack_pixel_normalized fb _ hn]
  have hr := scale_channel_le (load_pixel (fb.bpp * 8) fb (pixel_index fb x y)) fb.rshift
    fb.rmask fb.rnorm hn.1
  have hg := scale_channel_le (load_pixel (fb.bpp * 8) fb (pixel_index fb x y)) fb.gshift
    fb.gmask fb.gnorm hn.2.1
  have hbl := scale_channel_le (load_pixel (fb.bpp * 8) fb (pixel_index fb x y)) fb.bshift
    fb.bmask fb.bnorm hn.2.2
  exact TRFB_COLOR_of_RGB _ _ _ (Nat.lt_succ_of_le hr) (Nat.lt_succ_of_le hg)
    (Nat.lt_succ_of_le hbl)

/-- What the round trip reads back at an in-range pixel. -/
theorem convert_roundtrip_get (src dst src2 : trfb_framebuffer) (x y : Nat)
    (hdb : supported_bpp dst.bpp) (hsb : supported_bpp src2.bpp)
    (hds : fb_sized dst) (hss : fb_sized src2)
    (hsz1 : same_size dst src) (hsz2 : same_size src2 src)
    (hx : x < src.width) (hy : y < src.height) :
    trfb_framebuffer_get_pixel (convert_roundtrip src dst src2) x y =
      readback src2 (readback dst (trfb_framebuffer_get_pixel src x y)) := by
  obtain ⟨w1, h1⟩ := hsz1
  obtain ⟨w2, h2⟩ := hsz2
  obtain ⟨hfr, hget⟩ := convert_get dst src x y hdb hds ⟨w1, h1⟩ (by rw [w1]; exact hx)
    (by rw [h1]; exact hy)
  obtain ⟨⟨w3, h3⟩, -, -⟩ := hfr
  unfold convert_roundtrip
  rw [(convert_get src2 (trfb_framebuffer_convert dst src) x y hsb hss
    ⟨by rw [w3, w1, w2], by rw [h3, h1, h2]⟩ (by rw [w2]; exact hx) (by rw [h2]; exact hy)).2,
    hget]

/-- C2 (amended): with `convert` as the spec defines it, for valid formats
`src` and `dst` and a framebuffer `src2` of `src`'s format, all of one size,
the round trip `convert(dst, src)` then `convert(src2, dst)` yields at every
in-range pixel a colour whose R, G and B channels never exceed the original
channel and fall short of it by less than `2^max(norm_src, norm_dst)` on the
0..255 scale, one quantization step of the coarser of the two channels; when
the destination channel is at least as wide as the source channel the channel
is restored exactly. -/
theorem convert_roundtrip_coarser_step (src dst src2 : trfb_framebuffer) (x y : Nat)
    (hsv : valid_format src) (hdv : valid_format dst) (hfmt : same_format src2 src)
    (hds : fb_sized dst) (hss : fb_sized src2)
    (hsz1 : same_size dst src) (hsz2 : same_size src2 src)
    (hx : x < src.width) (hy : y < src.height) :
    (TRFB_COLOR_R (trfb_framebuffer_get_pixel (convert_roundtrip src dst src2) x y) ≤
        TRFB_COLOR_R (trfb_framebuffer_get_pixel src x y) ∧
      TRFB_COLOR_R (trfb_framebuffer_get_pixel src x y) -
          TRFB_COLOR_R (trfb_framebuffer_get_pixel (convert_roundtrip src dst src2) x y) <
        2 ^ max src.rnorm dst.rnorm ∧
      (dst.rnorm ≤ src.rnorm →
        TRFB_COLOR_R (trfb_framebuffer_get_pixel (convert_roundtrip src dst src2) x y) =
          TRFB_COLOR_R (trfb_framebuffer_get_pixel src x y))) ∧
    (TRFB_COLOR_G (trfb_framebuffer_get_pixel (convert_roundtrip src dst src2) x y) ≤
        TRFB_COLOR_G (trfb_framebuffer_get_pixel src x y) ∧
      TRFB_COLOR_G (trfb_framebuffer_get_pixel src x y) -
          TRFB_COLOR_G (trfb_framebuffer_get_pixel (convert_roundtrip src dst src2) x y) <
        2 ^ max src.gnorm dst.gnorm ∧
      (dst.gnorm ≤ src.gnorm →
        TRFB_COLOR_G (trfb_framebuffer_get_pixel (convert_roundtrip src dst src2) x y) =
          TRFB_COLOR_G (trfb_framebuffer_get_pixel src x y))) ∧
    (TRFB_COLOR_B (trfb_framebuffer_get_pixel (convert_roundtrip src dst src2) x y) ≤
        TRFB_COLOR_B (trfb_framebuffer_get_pixel src x y) ∧
      TRFB_COLOR_B (trfb_framebuffer_get_pixel src x y) -
          TRFB_COLOR_B (trfb_framebuffer_get_pixel (convert_roundtrip src dst src2) x y) <
        2 ^ max src.bnorm dst.bnorm ∧
      (dst.bnorm ≤ src.bnorm →
        TRFB_COLOR_B (trfb_framebuffer_get_pixel (convert_roundtrip src dst src2) x y) =
          TRFB_COLOR_B (trfb_framebuffer_get_pixel src x y))) := by
  obtain ⟨hsb, hsinv, hsn⟩ := hsv
  obtain ⟨hdb, hdinv, hdn⟩ := hdv
  have hs2b : supported_bpp src2.bpp := by rw [hfmt.1]; exact hsb
  rw [convert_roundtrip_get src dst src2 x y hdb hs2b hds hss hsz1 hsz2 hx hy,
    readback_congr src2 src _ hfmt]
  obtain ⟨r2, g2, b2⟩ := readback_channels src
    (readback dst (trfb_framebuffer_get_pixel src x y)) hsb hsinv
  obtain ⟨r1, g1, b1⟩ := readback_channels dst (trfb_framebuffer_get_pixel src x y) hdb hdinv
  obtain ⟨raw, r0, g0, b0⟩ := get_pixel_channels src x y hsb hsn
  rw [r2, g2, b2, r1, g1, b1, r0, g0, b0]
  exact ⟨roundtrip_channel _ _ _ _ _ hsn.1 hdn.1 Nat.and_le_right,
    roundtrip_channel _ _ _ _ _ hsn.2.1 hdn.2.1 Nat.and_le_right,
    roundtrip_channel _ _ _ _ _ hsn.2.2 hdn.2.2 Nat.and_le_right⟩

/-- C2 (amended) at a concrete input: RGB888 holding `0xFF0000`, through
RGB565 and back. -/
theorem convert_roundtrip_coarser_step_witness :
    TRFB_COLOR_R (trfb_framebuffer_get_pixel
        (convert_roundtrip (fb32_example 0xFF0000) (fb16_example 0) (fb32_example 0)) 0 0) ≤
      TRFB_COLOR_R (trfb_framebuffer_get_pixel (fb32_example 0xFF0000) 0 0) ∧
    TRFB_COLOR_R (trfb_framebuffer_get_pixel (fb32_example 0xFF0000) 0 0) -
        TRFB_COLOR_R (trfb_framebuffer_get_pixel
          (convert_roundtrip (fb32_example 0xFF0000) (fb16_example 0) (fb32_example 0)) 0 0) <
      2 ^ max (fb32_example 0xFF0000).rnorm (fb16_example 0).rnorm :=
  ⟨(convert_roundtrip_coarser_step (fb32_example 0xFF0000) (fb16_example 0) (fb32_example 0) 0 0
      (by decide) (by decide) (by decide) (by decide) (by decide) (by decide) (by decide)
      (by decide) (by decide)).1.1,
   (convert_roundtrip_coarser_step (fb32_example 0xFF0000) (fb16_example 0) (fb32_example 0) 0 0
      (by decide) (by decide) (by decide) (by decide) (by decide) (by decide) (by decide)
      (by decide) (by decide)).1.2.1⟩

/-- C2 as stated fails: converting the valid RGB888 pixel `0xFF0000` to the
valid RGB565 format and back to RGB888 gives red 248 where the original had
255, a difference of 7, more than one quantization step of the source channel
(`2^0 = 1`). -/
theorem convert_roundtrip_src_step_fails :
    valid_format (fb32_example 0xFF0000) ∧ valid_format (fb16_example 0) ∧
    same_format (fb32_example 0) (fb32_example 0xFF0000) ∧
    same_size (fb16_example 0) (fb32_example 0xFF0000) ∧
    same_size (fb32_example 0) (fb32_example 0xFF0000) ∧
    TRFB_COLOR_R (trfb_framebuffer_get_pixel (fb32_example 0xFF0000) 0 0) = 255 ∧
    TRFB_COLOR_R (trfb_framebuffer_get_pixel
      (convert_roundtrip (fb32_example 0xFF0000) (fb16_example 0) (fb32_example 0)) 0 0) = 248 ∧
    stored_pixel (convert_roundtrip (fb32_example 0xFF0000) (fb16_example 0) (fb32_example 0))
      0 0 = 0xF80000 ∧
    ¬ (TRFB_COLOR_R (trfb_framebuffer_get_pixel (fb32_example 0xFF0000) 0 0) -
        TRFB_COLOR_R (trfb_framebuffer_get_pixel
          (convert_roundtrip (fb32_example 0xFF0000) (fb16_example 0) (fb32_example 0)) 0 0) ≤
      2 ^ (fb32_example 0xFF0000).rnorm) := by
  decide

end Trfb
